import Mathlib

/-!
Verification development for the Student-Learning-Journey summarization core.

The Python sources (backend/normalizer.py, backend/data_processing.py,
backend/ocr_parser.py, backend/behaviour_extractor.py, backend/top5.py,
backend/analytics_insights.py, backend/analytics_statistics.py,
backend/text_name.py) are shallowly embedded below.  Strings are modelled as
Lean `String`/`List Char` (the inputs of interest are ASCII), pandas
DataFrames as a `Frame` of named columns over a `Cell` type, numbers as `Rat`
(exact arithmetic in place of IEEE floats), and Python exceptions as
`Except String`.  Python regular expressions are modelled either by bespoke
backtracking matchers (where universally quantified theorems are proved about
them) or by a small regex AST plus a fuel-bounded backtracking interpreter
that follows CPython's leftmost / greedy / lazy / alternation-order
semantics.  Python `dict`s are association lists with insertion order and
in-place update, matching CPython semantics.  Where CPython is
nondeterministic (iteration order of `set` literals), a fixed order is chosen
and noted at the definition.
-/

set_option maxRecDepth 20000

namespace SLJS

/-! ## Python string primitives (ASCII fragment) -/

/-- Python whitespace for `str.strip` and regex `\s` (ASCII fragment). -/
def isSpaceC (c : Char) : Bool :=
  c == ' ' || c == '\t' || c == '\n' || c == '\x0d' || c == '\x0b' || c == '\x0c'

def isDigitC (c : Char) : Bool := c.isDigit

def isAlphaC (c : Char) : Bool := c.isAlpha

def isUpperC (c : Char) : Bool := c.isUpper

/-- Regex `\w` (ASCII fragment): letters, digits, underscore. -/
def isWordC (c : Char) : Bool := c.isAlphanum || c == '_'

def toLowerC (c : Char) : Char := c.toLower

/-- Python `str.strip()` on a character list. -/
def stripC (l : List Char) : List Char :=
  ((l.dropWhile isSpaceC).reverse.dropWhile isSpaceC).reverse

def pyStrip (s : String) : String := ⟨stripC s.data⟩

def pyLower (s : String) : String := ⟨s.data.map toLowerC⟩

/-- Python `str.title()`: a letter is uppercased if the previous character is
not a letter, lowercased otherwise (ASCII fragment). -/
def titleC : Bool → List Char → List Char
  | _, [] => []
  | prevAlpha, c :: t =>
    if isAlphaC c then
      (if prevAlpha then c.toLower else c.toUpper) :: titleC true t
    else
      c :: titleC false t

def pythonTitle (s : String) : String := ⟨titleC false s.data⟩

/-- Python `str.capitalize()` (ASCII fragment). -/
def pyCapitalize (s : String) : String :=
  match s.data with
  | [] => ⟨[]⟩
  | c :: t => ⟨c.toUpper :: t.map toLowerC⟩

/-- Python `str.isupper()` (ASCII fragment): at least one cased character and
no lowercase character. -/
def pyIsUpper (s : String) : Bool :=
  s.data.any isAlphaC && s.data.all (fun c => !c.isLower)

/-- Whitespace splitting, fuel-bounded (the fuel is structural so that the
function evaluates inside the kernel; the wrapper supplies ample fuel). -/
def splitWsGo (fuel : Nat) (l : List Char) : List (List Char) :=
  match fuel with
  | 0 => []
  | fl + 1 =>
    match l with
    | [] => []
    | c :: t =>
      if isSpaceC c then splitWsGo fl t
      else (c :: t.takeWhile (fun d => !isSpaceC d)) ::
        splitWsGo fl (t.dropWhile (fun d => !isSpaceC d))

def splitWsC (l : List Char) : List (List Char) := splitWsGo (l.length + 1) l

/-- Python `str.split()` (whitespace split, no empty parts). -/
def pySplitWs (s : String) : List String := (splitWsC s.data).map (⟨·⟩)

/-- Python `str.split('\n')` (keeps empty parts). -/
def splitOnNlGo (acc : List Char) : List Char → List String
  | [] => [⟨acc.reverse⟩]
  | c :: t =>
    if c = '\n' then (⟨acc.reverse⟩ : String) :: splitOnNlGo [] t
    else splitOnNlGo (c :: acc) t

def splitOnNl (s : String) : List String := splitOnNlGo [] s.data

/-- Prefix test on character lists. -/
def isPrefixC : List Char → List Char → Bool
  | [], _ => true
  | _ :: _, [] => false
  | a :: as, b :: bs => a == b && isPrefixC as bs

/-- Python substring test `needle in hay` on character lists. -/
def containsC (hay needle : List Char) : Bool :=
  match hay with
  | [] => needle.isEmpty
  | _ :: t => isPrefixC needle hay || containsC t needle

def containsS (hay needle : String) : Bool := containsC hay.data needle.data

def startsWithS (s p : String) : Bool := isPrefixC p.data s.data

/-- Python `str.replace(old, new)` (all occurrences, left to right); `old` is
assumed nonempty by all call sites in the sources. -/
def replaceGo (fuel : Nat) (l old new : List Char) : List Char :=
  match fuel with
  | 0 => l
  | fl + 1 =>
    match l with
    | [] => []
    | c :: t =>
      if old.isEmpty then c :: t
      else if isPrefixC old (c :: t) then
        new ++ replaceGo fl ((c :: t).drop old.length) old new
      else
        c :: replaceGo fl t old new

def replaceC (l old new : List Char) : List Char := replaceGo (l.length + 1) l old new

def pyReplace (s old new : String) : String := ⟨replaceC s.data old.data new.data⟩

/-- Collapse every whitespace run to a single space: `re.sub(r"\s+", " ", s)`. -/
def collapseWsGo (fuel : Nat) (l : List Char) : List Char :=
  match fuel with
  | 0 => l
  | fl + 1 =>
    match l with
    | [] => []
    | c :: t =>
      if isSpaceC c then ' ' :: collapseWsGo fl (t.dropWhile isSpaceC)
      else c :: collapseWsGo fl t

def collapseWsC (l : List Char) : List Char := collapseWsGo (l.length + 1) l

def collapseWs (s : String) : String := ⟨collapseWsC s.data⟩

/-! ## Insertion-ordered dictionaries (Python `dict`) -/

/-- Python `dict` assignment `d[k] = v`: in-place update if the key exists
(keeping its position), append otherwise. -/
def dictSet {α : Type} (d : List (String × α)) (k : String) (v : α) :
    List (String × α) :=
  match d with
  | [] => [(k, v)]
  | (k0, v0) :: t => if k0 = k then (k0, v) :: t else (k0, v0) :: dictSet t k v

/-- Python `d.get(k)` / `d[k]`. -/
def dictGet {α : Type} (d : List (String × α)) (k : String) : Option α :=
  match d with
  | [] => none
  | (k0, v0) :: t => if k0 = k then some v0 else dictGet t k

/-! ## Cells and frames (the pandas fragment used by the sources) -/

/-- A DataFrame cell: a string, a number (exact rational in place of a float),
or missing data (`NaN`). -/
inductive Cell where
  | str (s : String)
  | num (q : Rat)
  | null
deriving DecidableEq

/-- Python `str(cell)`.  `NaN` prints as "nan"; integral numbers print without
a decimal part (the sources only ever stringify integral numbers). -/
def cellStr : Cell → String
  | .str s => s
  | .num q => if q.den = 1 then toString q.num else toString q
  | .null => "nan"

/-- `pd.notna`. -/
def cellNotNull : Cell → Bool
  | .null => false
  | _ => true

/-- Python truthiness of a cell value (`NaN` is truthy, `0` and `""` falsy). -/
def cellTruthy : Cell → Bool
  | .str s => !s.isEmpty
  | .num q => q ≠ 0
  | .null => true

/-- Digit-string to `Nat`, structurally (kernel-reducible, unlike
`String.toNat!`, whose `String.foldl` loop does not reduce); callers only
pass all-digit strings produced by the regex groups. -/
def digitsToNat (acc : Nat) : List Char → Nat
  | [] => acc
  | c :: t => digitsToNat (acc * 10 + (c.toNat - 48)) t

def pyToNat (s : String) : Nat := digitsToNat 0 s.data

/-- Python `float(str)` for plain decimal literals (optional sign, digits,
optional fractional part); other inputs raise `ValueError`, modelled as
`none`.  Exotic accepted forms (exponents, "inf", "nan") do not occur in the
inputs considered here. -/
def parseDecimal (l : List Char) : Option Rat :=
  let (sign, l1) :=
    match l with
    | '-' :: t => ((-1 : Rat), t)
    | '+' :: t => ((1 : Rat), t)
    | _ => ((1 : Rat), l)
  let intPart := l1.takeWhile isDigitC
  let rest := l1.dropWhile isDigitC
  match rest with
  | [] =>
    if intPart.isEmpty then none
    else some (sign * ((pyToNat ⟨intPart⟩).cast : Rat))
  | '.' :: frac =>
    if frac.all isDigitC ∧ ¬(intPart.isEmpty ∧ frac.isEmpty) then
      some (sign * (((pyToNat ⟨intPart⟩).cast : Rat) +
        ((pyToNat ⟨frac⟩).cast : Rat) / ((10 : Rat) ^ frac.length)))
    else none
  | _ => none

def pyFloatOfString (s : String) : Option Rat := parseDecimal (stripC s.data)

/-- `pd.to_numeric(..., errors="coerce")` on one cell. -/
def toNumericCell : Cell → Cell
  | .num q => .num q
  | .null => .null
  | .str s =>
    match pyFloatOfString s with
    | some q => .num q
    | none => .null

/-- A DataFrame: named columns, row-major cells.  Every row is read through
`rowGet`, which returns `null` past the end, so ragged rows behave like
missing data. -/
structure Frame where
  cols : List String
  rows : List (List Cell)
deriving DecidableEq

/-- `row.get(name, default)` given the frame's column list. -/
def rowGet (cols : List String) (row : List Cell) (name : String)
    (dflt : Cell) : Cell :=
  match cols.findIdx? (· = name) with
  | some i => row.getD i .null
  | none => dflt

/-- Column extraction `df[name]` (first column with that name). -/
def getCol (f : Frame) (name : String) : List Cell :=
  match f.cols.findIdx? (· = name) with
  | some i => f.rows.map (fun r => r.getD i .null)
  | none => []

/-- All columns of a frame, in order, as (name, cells) pairs. -/
def frameColumns (f : Frame) : List (String × List Cell) :=
  f.cols.enum.map (fun p => (p.2, f.rows.map (fun r => r.getD p.1 .null)))

/-- `df.empty`. -/
def frameEmpty (f : Frame) : Bool := f.rows.isEmpty || f.cols.isEmpty

/-- A column has pandas numeric dtype when no cell is a string (an all-null
column is a float64 column of NaN). -/
def numericColB (cells : List Cell) : Bool :=
  cells.all (fun c => match c with | .str _ => false | _ => true)

/-- A column has object dtype when some cell is a string. -/
def objectColB (cells : List Cell) : Bool :=
  cells.any (fun c => match c with | .str _ => true | _ => false)

/-- Non-null numeric values of a column, in existing order (`.dropna()`). -/
def nonNulls (cells : List Cell) : List Rat :=
  cells.filterMap (fun c => match c with | .num q => some q | _ => none)

/-! ## A small Python-regex model

An AST plus a fuel-bounded backtracking interpreter following CPython's
semantics: leftmost match position, alternation tried left to right, greedy
repetition tried longest first, lazy repetition shortest first.  It is used
for patterns that only need to be evaluated on concrete inputs; patterns that
appear in universally quantified theorems get bespoke matchers instead. -/

inductive RE where
  | eps
  | cls (p : Char → Bool)
  | cat (a b : RE)
  | alt (a b : RE)
  | rep (lo : Nat) (hi : Option Nat) (lazy : Bool) (a : RE)
  | grp (i : Nat) (a : RE)
  | wordB
  | look (a : RE)
  | eol

/-- Matcher state: the previous character (for `\b`), the remaining input and
the group captures recorded so far. -/
structure MState where
  prev : Option Char
  rest : List Char
  caps : List (Nat × List Char)

def capSet (caps : List (Nat × List Char)) (i : Nat) (v : List Char) :
    List (Nat × List Char) :=
  match caps with
  | [] => [(i, v)]
  | (j, w) :: t => if j = i then (j, v) :: t else (j, w) :: capSet t i v

def capGet (caps : List (Nat × List Char)) (i : Nat) : Option (List Char) :=
  match caps with
  | [] => none
  | (j, w) :: t => if j = i then some w else capGet t i

/-- Literal character. -/
def reLit (c : Char) : RE := .cls (fun d => d == c)

/-- Case-insensitive literal character. -/
def reLitCI (c : Char) : RE := .cls (fun d => d.toLower == c.toLower)

/-- Literal string. -/
def reStr (s : String) : RE := s.data.foldr (fun c r => .cat (reLit c) r) .eps

/-- Case-insensitive literal string. -/
def reStrCI (s : String) : RE := s.data.foldr (fun c r => .cat (reLitCI c) r) .eps

def reStar (a : RE) : RE := .rep 0 none false a

def rePlus (a : RE) : RE := .rep 1 none false a

def reOpt (a : RE) : RE := .rep 0 (some 1) false a

def reAlts (l : List RE) : RE :=
  match l with
  | [] => .eps
  | [r] => r
  | r :: t => .alt r (reAlts t)

def reSpace : RE := .cls isSpaceC

def reDigit : RE := .cls isDigitC

/-- The backtracking interpreter.  `fuel` bounds repetition unrollings; every
driver below supplies ample fuel for its input, so `none`-by-exhaustion does
not occur on the concrete inputs evaluated in this development. -/
def reM (fuel : Nat) (r : RE) (s : MState) (k : MState → Option MState) :
    Option MState :=
  match fuel with
  | 0 => none
  | fl + 1 =>
    match r with
    | .eps => k s
    | .cls p =>
      match s.rest with
      | [] => none
      | c :: cs => if p c then k ⟨some c, cs, s.caps⟩ else none
    | .cat a b => reM fl a s (fun s1 => reM fl b s1 k)
    | .alt a b =>
      match reM fl a s k with
      | some r1 => some r1
      | none => reM fl b s k
    | .wordB =>
      let before := match s.prev with | some c => isWordC c | none => false
      let after := match s.rest with | c :: _ => isWordC c | [] => false
      if before != after then k s else none
    | .eol => if s.rest = [] ∨ s.rest = ['\n'] then k s else none
    | .look a =>
      match reM fl a s some with
      | some _ => k s
      | none => none
    | .grp i a =>
      reM fl a s (fun s1 =>
        k { s1 with caps := capSet s1.caps i (s.rest.take (s.rest.length - s1.rest.length)) })
    | .rep lo hi lz a =>
      match hi with
      | some 0 => k s
      | _ =>
        if 0 < lo then
          reM fl a s (fun s1 => reM fl (.rep (lo - 1) (hi.map (· - 1)) lz a) s1 k)
        else if lz then
          match k s with
          | some r1 => some r1
          | none =>
            reM fl a s (fun s1 =>
              if s1.rest.length < s.rest.length then
                reM fl (.rep 0 (hi.map (· - 1)) lz a) s1 k
              else none)
        else
          match
            reM fl a s (fun s1 =>
              if s1.rest.length < s.rest.length then
                reM fl (.rep 0 (hi.map (· - 1)) lz a) s1 k
              else none)
          with
          | some r1 => some r1
          | none => k s

/-- A successful match: absolute start and end positions plus captures. -/
structure ReMatch where
  start : Nat
  stop : Nat
  caps : List (Nat × List Char)
deriving Repr

def reFuel (cs : List Char) : Nat := (cs.length + 2) * 2000

/-- Try a match at successive start positions (leftmost wins), like
`re.search`. -/
def reSearchFrom (r : RE) (prev : Option Char) (cs : List Char) (pos : Nat) :
    Option ReMatch :=
  match reM (reFuel cs) r ⟨prev, cs, []⟩ some with
  | some s1 => some ⟨pos, pos + (cs.length - s1.rest.length), s1.caps⟩
  | none =>
    match cs with
    | [] => none
    | c :: t => reSearchFrom r (some c) t (pos + 1)

def reSearch (r : RE) (s : String) : Option ReMatch :=
  reSearchFrom r none s.data 0

/-- Substring of the subject by absolute positions. -/
def sliceC (cs : List Char) (a b : Nat) : List Char := (cs.take b).drop a

/-- Group `i` of a match as a string ("" when the group did not participate,
as `re.findall` reports it). -/
def matchGroup (m : ReMatch) (i : Nat) : String :=
  ⟨(capGet m.caps i).getD []⟩

/-- `re.finditer`: non-overlapping matches, scanning left to right; after a
zero-width match the scan advances one character. -/
def reFindIterFrom (r : RE) (fuel : Nat) (prev : Option Char) (cs : List Char)
    (pos : Nat) : List ReMatch :=
  match fuel with
  | 0 => []
  | fs + 1 =>
    match reSearchFrom r prev cs pos with
    | none => []
    | some m =>
      let consumed := m.stop - pos
      if h0 : consumed = 0 then
        match cs.drop (m.start - pos) with
        | [] => [m]
        | c :: t => m :: reFindIterFrom r fs (some c) t (m.start + 1)
      else
        let newRest := cs.drop (m.stop - pos)
        let newPrev := (cs.take (m.stop - pos)).getLast?
        m :: reFindIterFrom r fs newPrev newRest m.stop

def reFindIter (r : RE) (s : String) : List ReMatch :=
  reFindIterFrom r (s.data.length + 1) none s.data 0

/-- `re.findall` for a pattern with `n` capture groups: the list of group
tuples (here: group `1 .. n` as strings). -/
def reFindAll (r : RE) (n : Nat) (s : String) : List (List String) :=
  (reFindIter r s).map (fun m => (List.range n).map (fun i => matchGroup m (i + 1)))

/-- `re.sub(pattern, repl, s)` restricted to a plain replacement string. -/
def reSubAllFrom (r : RE) (fuel : Nat) (repl : List Char) (prev : Option Char)
    (cs : List Char) (pos : Nat) : List Char :=
  match fuel with
  | 0 => cs
  | fs + 1 =>
    match reSearchFrom r prev cs pos with
    | none => cs
    | some m =>
      let pre := cs.take (m.start - pos)
      let consumed := m.stop - pos
      if consumed ≤ m.start - pos then
        -- zero-width match: emit the replacement, copy one char, continue
        match cs.drop (m.start - pos) with
        | [] => pre ++ repl
        | c :: t => pre ++ repl ++ c :: reSubAllFrom r fs repl (some c) t (m.start + 1)
      else
        let rest := cs.drop consumed
        let newPrev := (cs.take consumed).getLast?
        pre ++ repl ++ reSubAllFrom r fs repl newPrev rest m.stop

def reSubAll (r : RE) (repl : String) (s : String) : String :=
  ⟨reSubAllFrom r (s.data.length + 1) repl.data none s.data 0⟩

/-- `re.sub(pattern, f, s)` with a function of the matched text, as used by
`_collapse_spaced_letters`. -/
def reSubFnFrom (r : RE) (fuel : Nat) (f : List Char → List Char)
    (prev : Option Char) (cs : List Char) (pos : Nat) : List Char :=
  match fuel with
  | 0 => cs
  | fs + 1 =>
    match reSearchFrom r prev cs pos with
    | none => cs
    | some m =>
      let pre := cs.take (m.start - pos)
      let matched := sliceC cs (m.start - pos) (m.stop - pos)
      let consumed := m.stop - pos
      if consumed ≤ m.start - pos then
        match cs.drop (m.start - pos) with
        | [] => pre ++ f matched
        | c :: t => pre ++ f matched ++ c :: reSubFnFrom r fs f (some c) t (m.start + 1)
      else
        let rest := cs.drop consumed
        let newPrev := (cs.take consumed).getLast?
        pre ++ f matched ++ reSubFnFrom r fs f newPrev rest m.stop

def reSubFn (r : RE) (f : List Char → List Char) (s : String) : String :=
  ⟨reSubFnFrom r (s.data.length + 1) f none s.data 0⟩

/-- `re.split(pattern, s)` (no capture groups in the pattern, as used by the
sources). -/
def reSplitFrom (r : RE) (fuel : Nat) (prev : Option Char) (cs : List Char)
    (pos : Nat) : List (List Char) :=
  match fuel with
  | 0 => [cs]
  | fs + 1 =>
    match reSearchFrom r prev cs pos with
    | none => [cs]
    | some m =>
      let pre := cs.take (m.start - pos)
      let consumed := m.stop - pos
      if consumed ≤ m.start - pos then
        match cs.drop (m.start - pos) with
        | [] => [cs]
        | c :: t =>
          match reSplitFrom r fs (some c) t (m.start + 1) with
          | [] => [cs]
          | h :: rest2 => (pre ++ c :: h) :: rest2
      else
        let rest := cs.drop consumed
        let newPrev := (cs.take consumed).getLast?
        pre :: reSplitFrom r fs newPrev rest m.stop

def reSplit (r : RE) (s : String) : List String :=
  (reSplitFrom r (s.data.length + 1) none s.data 0).map (⟨·⟩)

/-! ## normalizer.py: SCORE_RE and `_extract_score_from_text`

`SCORE_RE` is modelled by a bespoke backtracking matcher so that its
behaviour can be proved for whole families of inputs.  The matcher follows
the CPython engine: `re.search` tries start positions left to right; at a
given start, the lazy `.+?` label grows one character at a time; the optional
separator `(?:[:\-]\s*)?` is tried consumed-first; the three alternatives are
tried in pattern order; bounded `\d{m,n}` is greedy with backtracking. -/

/-- The named groups of `SCORE_RE` (a group is `some` when its alternative
matched). -/
structure ScoreGroups where
  score : Option (List Char)
  maxg : Option (List Char)
  score2 : Option (List Char)
  max2 : Option (List Char)
  score3 : Option (List Char)
deriving DecidableEq, Repr

/-- Length of the leading digit run. -/
def leadDigits (cs : List Char) : Nat := (cs.takeWhile isDigitC).length

/-- Alternative `(?P<score>\d{1,3})\s*/\s*(?P<max>\d{1,4})`, trying the digit
prefix of length `k` first, then shorter ones (greedy with backtracking). -/
def alt1Try (cs : List Char) (k : Nat) : Option ScoreGroups :=
  match k with
  | 0 => none
  | kk + 1 =>
    match (cs.drop (kk + 1)).dropWhile isSpaceC with
    | '/' :: r2 =>
      if min 4 (leadDigits (r2.dropWhile isSpaceC)) = 0 then alt1Try cs kk
      else
        some ⟨some (cs.take (kk + 1)),
          some ((r2.dropWhile isSpaceC).take (min 4 (leadDigits (r2.dropWhile isSpaceC)))),
          none, none, none⟩
    | _ => alt1Try cs kk

def alt1M (cs : List Char) : Option ScoreGroups := alt1Try cs (min 3 (leadDigits cs))

/-- Alternative `(?P<score2>\d{1,3})\s+of\s+(?P<max2>\d{1,4})` (the literal
"of" is case-insensitive under the pattern's IGNORECASE flag). -/
def alt2Try (cs : List Char) (k : Nat) : Option ScoreGroups :=
  match k with
  | 0 => none
  | kk + 1 =>
    if ((cs.drop (kk + 1)).takeWhile isSpaceC).isEmpty then alt2Try cs kk
    else
      match (cs.drop (kk + 1)).dropWhile isSpaceC with
      | o :: f :: r2 =>
        if o.toLower = 'o' ∧ f.toLower = 'f' then
          if (r2.takeWhile isSpaceC).isEmpty then alt2Try cs kk
          else
            if min 4 (leadDigits (r2.dropWhile isSpaceC)) = 0 then alt2Try cs kk
            else
              some ⟨none, none, some (cs.take (kk + 1)),
                some ((r2.dropWhile isSpaceC).take (min 4 (leadDigits (r2.dropWhile isSpaceC)))),
                none⟩
        else alt2Try cs kk
      | _ => alt2Try cs kk

def alt2M (cs : List Char) : Option ScoreGroups := alt2Try cs (min 3 (leadDigits cs))

/-- Alternative `(?P<score3>\d{1,3})` (greedy, nothing follows it). -/
def alt3M (cs : List Char) : Option ScoreGroups :=
  if min 3 (leadDigits cs) = 0 then none
  else some ⟨none, none, none, none, some (cs.take (min 3 (leadDigits cs)))⟩

/-- The three alternatives in pattern order. -/
def altM (cs : List Char) : Option ScoreGroups :=
  match alt1M cs with
  | some g => some g
  | none =>
    match alt2M cs with
    | some g => some g
    | none => alt3M cs

/-- `(?:[:\-]\s*)?` followed by the alternation: the separator is consumed
first (greedy `?`), with fallback to the empty separator.  Backtracking
inside `\s*` is immaterial because every alternative starts with a digit. -/
def restM (cs : List Char) : Option ScoreGroups :=
  match cs with
  | [] => none
  | c :: r =>
    if c = ':' ∨ c = '-' then
      match altM (r.dropWhile isSpaceC) with
      | some g => some g
      | none => altM cs
    else altM cs

/-- The lazy label `(?P<label>.+?)`: grow the label one (non-newline)
character at a time, succeeding at the first length whose remainder
matches. -/
def labelTry (acc : List Char) (cs : List Char) :
    Option (List Char × ScoreGroups) :=
  match cs with
  | [] => none
  | c :: r =>
    if c = '\n' then none
    else
      match restM r with
      | some g => some (acc ++ [c], g)
      | none => labelTry (acc ++ [c]) r

/-- `SCORE_RE.search`: leftmost start position wins.  Returns the label
capture and the alternation groups. -/
def scoreSearch (cs : List Char) : Option (List Char × ScoreGroups) :=
  match cs with
  | [] => none
  | _ :: t =>
    match labelTry [] cs with
    | some r => some r
    | none => scoreSearch t

/-- Does `cs` start with "score", "marks" or "result" (case-insensitively)?
Returns the remainder after the word. -/
def scoreWordRest (cs : List Char) : Option (List Char) :=
  if isPrefixC "score".data (cs.map toLowerC) then some (cs.drop 5)
  else if isPrefixC "marks".data (cs.map toLowerC) then some (cs.drop 5)
  else if isPrefixC "result".data (cs.map toLowerC) then some (cs.drop 6)
  else none

/-- The character class `[:\s\-]` of the label-cleanup pattern. -/
def suffixClassB (c : Char) : Bool := c == ':' || isSpaceC c || c == '-'

/-- Does the cleanup pattern `\b(score|marks|result)\b[:\s\-]*$` match at
this position (with the given previous character)?  The trailing `\b` is
subsumed by the class check, since none of `[:\s\-]` (or the end) is a word
character. -/
def scoreSuffixHere (prev : Option Char) (cs : List Char) : Bool :=
  (match prev with | none => true | some c => !isWordC c) &&
    (match scoreWordRest cs with
     | some rest => rest.all suffixClassB
     | none => false)

/-- `re.sub(r"\b(score|marks|result)\b[:\s\-]*$", "", label, re.IGNORECASE)`:
delete from the leftmost position where the anchored pattern matches. -/
def stripScoreSuffixGo (prev : Option Char) (cs : List Char) : List Char :=
  match cs with
  | [] => []
  | c :: t =>
    if scoreSuffixHere prev cs then []
    else c :: stripScoreSuffixGo (some c) t

def stripScoreSuffixC (cs : List Char) : List Char := stripScoreSuffixGo none cs

/-- The label post-processing of `_extract_score_from_text` (lines 95 and
107-109): strip, delete a trailing score word, strip again, and map the empty
label to `None`. -/
def labelCleanup (rawLabel : List Char) : Option String :=
  if (stripC (stripScoreSuffixC (stripC rawLabel))).isEmpty then none
  else some ⟨stripC (stripScoreSuffixC (stripC rawLabel))⟩

/-- Result record of `_extract_score_from_text` (score and maximum are the
captured digit strings, as in the source). -/
structure Extracted where
  label : Option String
  score : Option String
  maximum : Option String
deriving DecidableEq, Repr

/-- `_extract_score_from_text` (normalizer.py lines 90-109). -/
def extractScoreFromText (s : String) : Option Extracted :=
  match scoreSearch s.data with
  | none => none
  | some (rawLabel, g) =>
    let sm : Option (List Char) × Option (List Char) :=
      if g.score.isSome then (g.score, g.maxg)
      else if g.score2.isSome then (g.score2, g.max2)
      else if g.score3.isSome then (g.score3, none)
      else (none, none)
    some { label := labelCleanup rawLabel,
           score := sm.1.map (⟨·⟩),
           maximum := sm.2.map (⟨·⟩) }

/-- A character allowed in the label part of the well-formed score lines of
claim C2: a letter or a space. -/
def labelCharB (c : Char) : Bool := isAlphaC c || c == ' '

/-- A well-formed label: nonempty, made of letters and spaces, starting and
ending with a letter. -/
def labelOKB (L : List Char) : Bool :=
  !L.isEmpty && L.all labelCharB &&
  (match L with | [] => false | c :: _ => isAlphaC c) &&
  (match L.getLast? with | some c => isAlphaC c | none => false)

/-- A well-formed digit field: nonempty, all digits, at most `k` of them. -/
def digitsOKB (k : Nat) (d : List Char) : Bool :=
  !d.isEmpty && d.all isDigitC && decide (d.length ≤ k)

/-! ## data_processing.py: vocabularies and entity extraction -/

/-- `ENGLISH_COMMON_WORDS` (data_processing.py lines 18-23), in source order. -/
def ENGLISH_COMMON_WORDS : List String :=
  ["name", "student", "school", "state", "gender", "male", "female",
   "form", "level", "nationality", "secondary", "primary", "class",
   "grade", "section", "age", "year", "date", "address", "phone",
   "email", "father", "mother", "guardian", "contact", "code"]

/-- `{w.title() for w in ENGLISH_COMMON_WORDS}`; membership is all that is
ever used, so the set is kept as a list. -/
def ENGLISH_COMMON_WORDS_CS : List String := ENGLISH_COMMON_WORDS.map pythonTitle

/-- `METADATA_KEYWORDS` (data_processing.py lines 26-33). -/
def METADATA_KEYWORDS : List String :=
  ["name", "student", "school", "state", "gender", "male", "female",
   "form", "level", "nationality", "class", "grade", "section", "age",
   "year", "date", "address", "phone", "email", "behaviour", "behavior",
   "attentiveness", "participation", "attendance", "punctuality",
   "discipline", "ratings", "father", "mother", "guardian", "parent",
   "contact", "code", "id", "number", "admission", "roll"]

def METADATA_KEYWORDS_CS : List String := METADATA_KEYWORDS.map pythonTitle

/-- `KNOWN_SUBJECTS` (data_processing.py lines 36-44). -/
def KNOWN_SUBJECTS : List String :=
  ["mathematics", "math", "maths", "science", "physics", "chemistry",
   "biology", "history", "geography", "english", "language", "languages",
   "malay", "bahasa", "chinese", "mandarin", "tamil", "arabic",
   "physical education", "pe", "art", "music", "literature",
   "economics", "accounting", "business", "computer", "ict",
   "additional mathematics", "add math", "moral", "pendidikan",
   "sejarah", "sains", "matematik"]

def KNOWN_SUBJECTS_CS : List String := KNOWN_SUBJECTS.map pythonTitle

/-- `CO_CURRICULAR_KEYWORDS` (data_processing.py lines 47-51). -/
def CO_CURRICULAR_KEYWORDS : List String :=
  ["member", "club", "society", "team", "day", "competition",
   "event", "activity", "activities", "award", "prize",
   "position", "role", "committee", "group", "association"]

def CO_CURRICULAR_KEYWORDS_CS : List String := CO_CURRICULAR_KEYWORDS.map pythonTitle

/-- Case-insensitive literal prefix: on success returns the raw matched
characters and the remainder. -/
def ciPrefixSplit (pat : String) (cs : List Char) : Option (List Char × List Char) :=
  if isPrefixC pat.data (cs.map toLowerC) then
    some (cs.take pat.length, cs.drop pat.length)
  else none

/-- Regex `\b` relative to a previous character. -/
def atBoundary (prev : Option Char) : Bool :=
  match prev with | none => true | some p => !isWordC p

/-- Does a word-boundary-delimited occurrence of `keyword` start here? -/
def wordAtBoundary (keyword : List Char) (prev : Option Char) (cs : List Char) : Bool :=
  atBoundary prev && isPrefixC keyword cs &&
    (match cs.drop keyword.length with | [] => true | d :: _ => !isWordC d)

def containsWordBGo (keyword : List Char) (prev : Option Char) : List Char → Bool
  | [] => wordAtBoundary keyword prev []
  | c :: t => wordAtBoundary keyword prev (c :: t) || containsWordBGo keyword (some c) t

/-- `re.search(rf"\b{re.escape(keyword)}\b", text)` as a Boolean. -/
def containsWordB (text keyword : String) : Bool :=
  containsWordBGo keyword.data none text.data

/-- `contains_metadata_keyword` (data_processing.py lines 143-149). -/
def containsMetadataKeyword (text : String) : Bool :=
  text ≠ "" && METADATA_KEYWORDS_CS.any (fun k => containsWordB text k)

/-- `contains_co_curricular_keyword` (data_processing.py lines 169-175). -/
def containsCoCurricularKeyword (text : String) : Bool :=
  text ≠ "" && CO_CURRICULAR_KEYWORDS_CS.any (fun k => containsWordB text k)

/-- `is_english_word` in the ENCHANT-unavailable environment (the enchant
dictionary is an optional dependency; the fallback table branch is
modelled). -/
def isEnglishWord (w : String) : Bool :=
  w ≠ "" && w.data.all isAlphaC && w ∈ ENGLISH_COMMON_WORDS_CS

/-- `re.findall(r"[A-Z][a-zA-Z]+", text)`: the non-overlapping capitalized
tokens, left to right, each taken greedily. -/
def capTokensGo (fuel : Nat) (l : List Char) : List String :=
  match fuel with
  | 0 => []
  | fl + 1 =>
    match l with
    | [] => []
    | c :: t =>
      if isUpperC c then
        if (t.takeWhile isAlphaC).isEmpty then capTokensGo fl t
        else (⟨c :: t.takeWhile isAlphaC⟩ : String) :: capTokensGo fl (t.dropWhile isAlphaC)
      else capTokensGo fl t

def capTokens (l : List Char) : List String := capTokensGo (l.length + 1) l

/-- `looks_like_name` (data_processing.py lines 70-81). -/
def looksLikeName (text : String) : Bool :=
  let tokens := capTokens text.data
  if tokens.length < 2 then false
  else if 2 ≤ (tokens.filter (fun t => !(t ∈ ENGLISH_COMMON_WORDS_CS))).length then true
  else
    let dictCheck := (tokens.take 3).map isEnglishWord
    true ∈ dictCheck && false ∈ dictCheck

/-- The two cue alternatives `(Student\s+Name|Name)` at one position, in
pattern order; each entry is the remainder after the cue. -/
def cueAttempts (cs : List Char) : List (List Char) :=
  (match ciPrefixSplit "student" cs with
   | some (_, rest1) =>
     if (rest1.takeWhile isSpaceC).isEmpty then []
     else
       match ciPrefixSplit "name" (rest1.dropWhile isSpaceC) with
       | some (_, rest2) => [rest2]
       | none => []
   | none => []) ++
  (match ciPrefixSplit "name" cs with
   | some (_, rest) => [rest]
   | none => [])

/-- The capture of `\s*[:\-]?\s*(.+)` on the remainder after a cue.  On
whitespace-degenerate remainders CPython's backtracking can capture a
slightly larger all-separator span; the difference contains no letters, so it
is invisible to the capitalized-token scanner that consumes this value. -/
def cueTailGroup (R : List Char) : List Char :=
  match R.dropWhile isSpaceC with
  | [] => R
  | c :: t =>
    if c = ':' ∨ c = '-' then
      match t.dropWhile isSpaceC with
      | [] => c :: t
      | d :: r => d :: r
    else c :: t

/-- `re.search((Student\s+Name|Name)\s*[:\-]?\s*(.+), text, IGNORECASE)`,
returning group 2; the tail `(.+)` matches exactly when the remainder has a
non-newline character. -/
def cueSearchGo : List Char → Option (List Char)
  | [] => none
  | c :: t =>
    match (cueAttempts (c :: t)).find? (fun R => R.any (fun d => d ≠ '\n')) with
    | some R => some (cueTailGroup R)
    | none => cueSearchGo t

/-- The `remainder` of `extract_full_name` (data_processing.py lines 96-104):
group 2 of the cue match, or the whole (whitespace-normalized) text. -/
def nameRemainder (text : String) : List Char :=
  (cueSearchGo (pyStrip (collapseWs text)).data).getD (pyStrip (collapseWs text)).data

/-- The hard stop-word boundary of `extract_full_name` (lines 113-118). -/
def nameStopB (w : String) : Bool :=
  w ∈ METADATA_KEYWORDS_CS || w ∈ KNOWN_SUBJECTS_CS || w ∈ CO_CURRICULAR_KEYWORDS_CS

/-- `extract_full_name` (data_processing.py lines 84-125).  The token loop
with `break` is `takeWhile` of the negated stop predicate. -/
def extractFullName (text : String) : Option String :=
  if text = "" then none
  else if (capTokens (nameRemainder text)).length < 2 then none
  else if 2 ≤ ((capTokens (nameRemainder text)).takeWhile (fun w => !nameStopB w)).length then
    some (String.intercalate " "
      ((capTokens (nameRemainder text)).takeWhile (fun w => !nameStopB w)))
  else none

/-- One alternative of `\b(Male|Female|Prefer not to say)\b` at a
position. -/
def genderAltHere (pat : String) (cs : List Char) : Option (List Char) :=
  match ciPrefixSplit pat cs with
  | some (raw, rest) =>
    if (match rest with | [] => true | d :: _ => !isWordC d) then some raw else none
  | none => none

def genderSearchGo (prev : Option Char) : List Char → Option (List Char)
  | [] => none
  | c :: t =>
    match
      (if atBoundary prev then
        (genderAltHere "male" (c :: t)).orElse (fun _ =>
          (genderAltHere "female" (c :: t)).orElse (fun _ =>
            genderAltHere "prefer not to say" (c :: t)))
      else none)
    with
    | some raw => some raw
    | none => genderSearchGo (some c) t

/-- `extract_gender` (data_processing.py lines 128-130). -/
def extractGender (text : String) : Option String :=
  (genderSearchGo none text.data).map (fun raw => pythonTitle ⟨raw⟩)

def stateSearchGo (prev : Option Char) : List Char → Option String
  | [] => none
  | c :: t =>
    if atBoundary prev ∧ isPrefixC "State".data (c :: t) then
      if ((c :: t).drop 5).takeWhile isSpaceC = [] then stateSearchGo (some c) t
      else
        match (((c :: t).drop 5).dropWhile isSpaceC).takeWhile isAlphaC with
        | [] => stateSearchGo (some c) t
        | w => some ⟨w⟩
    else stateSearchGo (some c) t

/-- `extract_state` (data_processing.py lines 133-140): the regex
`\bState\s+([A-Za-z]+)` is case-sensitive, and the special case compares
the captured group against the lowercase literal "negeri". -/
def extractState (text : String) : Option String :=
  match stateSearchGo none text.data with
  | none => none
  | some st => if st = "negeri" then some "Negeri Sembilan" else some st

/-- `is_valid_subject` (data_processing.py lines 152-166), on strings (the
non-string branch of the source is uninhabited in this model). -/
def isValidSubject (label : String) : Bool :=
  if label = "" then false
  else
    let ls := pyStrip label
    if KNOWN_SUBJECTS_CS.any (fun subj => containsS ls subj || containsS subj ls) then true
    else if containsMetadataKeyword ls then false
    else if 4 < (pySplitWs ls).length then false
    else if (pySplitWs ls).length ≤ 3 then true
    else false

/-! ## ocr_parser.py: student-name extraction from OCR text -/

/-- `[A-Z][a-zA-Z]+` at one position: the word and the remainder. -/
def capWordAt (cs : List Char) : Option (List Char × List Char) :=
  match cs with
  | [] => none
  | c :: t =>
    if isUpperC c then
      if (t.takeWhile isAlphaC).isEmpty then none
      else some (c :: t.takeWhile isAlphaC, t.dropWhile isAlphaC)
    else none

/-- Greedy `(?:\s+[A-Z][a-zA-Z]+)*`: the captured extension (with its
original separators) and the remainder.  Fuel-bounded; each step consumes at
least two characters, so the initial fuel below always suffices. -/
def capSeqMore (fuel : Nat) (acc : List Char) (cs : List Char) : List Char :=
  match fuel with
  | 0 => acc
  | fl + 1 =>
    if (cs.takeWhile isSpaceC).isEmpty then acc
    else
      match capWordAt (cs.dropWhile isSpaceC) with
      | some (w, rest) => capSeqMore fl (acc ++ cs.takeWhile isSpaceC ++ w) rest
      | none => acc

/-- `Name[:\s]+([A-Z][a-zA-Z]+(?:\s+[A-Z][a-zA-Z]+)*)`; `needB` selects the
`\bName` variant used by `extract_student_name_from_ocr`. -/
def ocrNameSearchGo (needB : Bool) (prev : Option Char) : List Char → Option (List Char)
  | [] => none
  | c :: t =>
    if (!needB || atBoundary prev) ∧ isPrefixC "Name".data (c :: t) then
      if ((c :: t).drop 4).takeWhile (fun d => d == ':' || isSpaceC d) = [] then
        ocrNameSearchGo needB (some c) t
      else
        match capWordAt (((c :: t).drop 4).dropWhile (fun d => d == ':' || isSpaceC d)) with
        | some (w, rest) => some (w ++ capSeqMore rest.length [] rest)
        | none => ocrNameSearchGo needB (some c) t
    else ocrNameSearchGo needB (some c) t

/-- The stop-word union of the OCR name path (ocr_parser.py line 51). -/
def ocrStopWords : List String :=
  METADATA_KEYWORDS_CS ++ KNOWN_SUBJECTS_CS ++ ENGLISH_COMMON_WORDS_CS

/-- The per-word stop condition of the OCR name loop (line 63). -/
def ocrWordStop (w : String) : Bool :=
  w ∈ ocrStopWords ||
    (match w.data with | c :: _ => isDigitC c | [] => false) ||
    containsS w "/"

/-- `extract_student_name_from_ocr` (ocr_parser.py lines 43-69): the per-line
loop; a line failing any check falls through to the next line. -/
def extractStudentNameFromOcrGo : List String → Option String
  | [] => none
  | l :: rest =>
    if containsS (pyStrip l) "Name" then
      match ocrNameSearchGo true none (pyStrip l).data with
      | some cand =>
        if 1 ≤ ((pySplitWs (pyStrip ⟨cand⟩)).takeWhile (fun w => !ocrWordStop w)).length then
          some (String.intercalate " "
            ((pySplitWs (pyStrip ⟨cand⟩)).takeWhile (fun w => !ocrWordStop w)))
        else extractStudentNameFromOcrGo rest
      | none => extractStudentNameFromOcrGo rest
    else extractStudentNameFromOcrGo rest

def extractStudentNameFromOcr (text : String) : Option String :=
  extractStudentNameFromOcrGo (splitOnNl text)

/-! ## ocr_parser.py: `parse_line_with_metadata_and_score` -/

def reSeq (l : List RE) : RE := l.foldr .cat .eps

/-- The class `[:\s]`. -/
def clsColonSpace : RE := .cls (fun c => c == ':' || isSpaceC c)

/-- `[A-Z][a-zA-Z]+`. -/
def reCapWord : RE := .cat (.cls isUpperC) (rePlus (.cls isAlphaC))

/-- `[A-Z][a-zA-Z]+(?:\s+[A-Z][a-zA-Z]+)*`. -/
def reCapSeq : RE := .cat reCapWord (reStar (.cat (rePlus reSpace) reCapWord))

/-- `Name[:\s]+(<capitalized words>)` (ocr_parser.py line 93). -/
def rePLName : RE := reSeq [reStr "Name", rePlus clsColonSpace, .grp 1 reCapSeq]

/-- `Gender[:\s]+(Male|Female)` with IGNORECASE (line 112). -/
def rePLGender : RE :=
  reSeq [reStrCI "Gender", rePlus clsColonSpace,
    .grp 1 (.alt (reStrCI "Male") (reStrCI "Female"))]

/-- `Nationality[:\s]+([A-Za-z]+)` (line 119). -/
def rePLNationality : RE :=
  reSeq [reStr "Nationality", rePlus clsColonSpace, .grp 1 (rePlus (.cls isAlphaC))]

def rePLNationalitySub : RE :=
  reSeq [reStr "Nationality", rePlus clsColonSpace, rePlus (.cls isAlphaC)]

/-- `School Level[:\s]+(.+)` (line 127). -/
def rePLSchool : RE :=
  reSeq [reStr "School Level", rePlus clsColonSpace,
    .grp 1 (rePlus (.cls (fun c => c ≠ '\n')))]

/-- `Form[:\s]+(Form\s+)?([0-9]+)` (line 144). -/
def rePLForm : RE :=
  reSeq [reStr "Form", rePlus clsColonSpace,
    reOpt (.grp 1 (.cat (reStr "Form") (rePlus reSpace))),
    .grp 2 (rePlus reDigit)]

/-- `[A-Z][a-z]+`. -/
def reUcLower : RE := .cat (.cls isUpperC) (rePlus (.cls Char.isLower))

/-- `State[:\s]+((?:[A-Z][a-z]+(?:\s+[A-Z][a-z]+)?)+)` (line 162). -/
def rePLState : RE :=
  reSeq [reStr "State", rePlus clsColonSpace,
    .grp 1 (.rep 1 none false (.cat reUcLower (reOpt (.cat (rePlus reSpace) reUcLower))))]

/-- `([A-Za-z\s]+?)\s+(\d{1,3})\s*/\s*(\d{1,4})` (lines 186 and 249). -/
def rePLScoreTail : RE :=
  reSeq [.grp 1 (.rep 1 none true (.cls (fun c => isAlphaC c || isSpaceC c))),
    rePlus reSpace, .grp 2 (.rep 1 (some 3) false reDigit),
    reStar reSpace, reLit '/', reStar reSpace, .grp 3 (.rep 1 (some 4) false reDigit)]

def malaysianStates : List String :=
  ["Negeri Sembilan", "Selangor", "Johor", "Penang", "Perak", "Kedah",
   "Kelantan", "Terengganu", "Pahang", "Melaka",
   "Sabah", "Sarawak", "Perlis", "Putrajaya", "Labuan"]

structure ParsedLine where
  metadata : List (String × String)
  subject : Option String
  score : Option Int
  maximum : Option Int
deriving DecidableEq

/-- The Name block of `parse_line_with_metadata_and_score` (lines 91-108):
returns the updated metadata and the (possibly) reduced line. -/
def plNameBlock (md : List (String × String)) (line : String) :
    List (String × String) × String :=
  if containsS line "Name" then
    match reSearch rePLName line with
    | some m =>
      let ws := (pySplitWs (pyStrip (matchGroup m 1))).takeWhile (fun w =>
        !(w ∈ ocrStopWords || (match w.data with | c :: _ => isDigitC c | [] => false)))
      if ws.isEmpty then (md, line)
      else
        (dictSet md "Student Name" (String.intercalate " " ws),
         pyStrip (reSubAll
           (reSeq [reStr "Name", rePlus clsColonSpace, reStr (String.intercalate " " ws)])
           "" line))
    | none => (md, line)
  else (md, line)

/-- The Gender block (lines 111-115). -/
def plGenderBlock (md : List (String × String)) (line : String) :
    List (String × String) × String :=
  if containsS line "Gender" then
    match reSearch rePLGender line with
    | some m =>
      (dictSet md "Gender" (pythonTitle (matchGroup m 1)),
       pyStrip (reSubAll rePLGender "" line))
    | none => (md, line)
  else (md, line)

/-- The Nationality block (lines 118-122). -/
def plNationalityBlock (md : List (String × String)) (line : String) :
    List (String × String) × String :=
  if containsS line "Nationality" then
    match reSearch rePLNationality line with
    | some m =>
      (dictSet md "Nationality" (matchGroup m 1),
       pyStrip (reSubAll rePLNationalitySub "" line))
    | none => (md, line)
  else (md, line)

/-- The stop-word loop of the School Level block (lines 132-137): first
matching stop word splits the value and keeps the part before it. -/
def plSchoolStopLoop : List String → String → String
  | [], v => v
  | stop :: rest, v =>
    if containsS v stop then
      pyStrip ((reSplit (reSeq [rePlus reSpace, reStr stop, clsColonSpace]) v).headD "")
    else plSchoolStopLoop rest v

/-- The School Level block (lines 125-140). -/
def plSchoolBlock (md : List (String × String)) (line : String) :
    List (String × String) × String :=
  if containsS line "School Level" then
    match reSearch rePLSchool line with
    | some m =>
      let sv := plSchoolStopLoop ["Form", "State", "Gender", "Nationality"]
        (pyStrip (matchGroup m 1))
      (dictSet md "School Level" sv,
       pyStrip (pyReplace (pyReplace line ("School Level: " ++ sv) "")
         ("School Level " ++ sv) ""))
    | none => (md, line)
  else (md, line)

/-- The Form block (lines 143-149). -/
def plFormBlock (md : List (String × String)) (line : String) :
    List (String × String) × String :=
  if containsS line "Form" ∧ ¬containsS line "School" then
    match reSearch rePLForm line with
    | some m =>
      (dictSet md "Form" ("Form " ++ matchGroup m 2),
       pyStrip (reSubAll rePLForm "" line))
    | none => (md, line)
  else (md, line)

/-- The State block (lines 152-183). -/
def plStateBlock (md : List (String × String)) (line : String) :
    List (String × String) × String :=
  if containsS line "State" then
    match reSearch rePLState line with
    | some m =>
      let cand := pyStrip (matchGroup m 1)
      if cand = "Negeri" ∨ startsWithS cand "Negeri" then
        if containsS line "Sembilan" then
          (dictSet md "State" "Negeri Sembilan",
           pyStrip (reSubAll (reSeq [reStr "State", rePlus clsColonSpace,
             reStr "Negeri", rePlus reSpace, reStr "Sembilan"]) "" line))
        else
          (dictSet md "State" "Negeri Sembilan",
           pyStrip (reSubAll (reSeq [reStr "State", rePlus clsColonSpace,
             reStr "Negeri"]) "" line))
      else if cand ∈ malaysianStates then
        (dictSet md "State" cand,
         pyStrip (reSubAll (reSeq [reStr "State", rePlus clsColonSpace,
           reStr cand]) "" line))
      else
        (dictSet md "State" ((pySplitWs cand).headD ""),
         pyStrip (reSubAll (reSeq [reStr "State", rePlus clsColonSpace,
           reStr ((pySplitWs cand).headD "")]) "" line))
    | none => (md, line)
  else (md, line)

/-- `parse_line_with_metadata_and_score` (ocr_parser.py lines 72-193). -/
def parseLineWithMetadataAndScore (line0 : String) : ParsedLine :=
  let s1 := plNameBlock [] line0
  let s2 := plGenderBlock s1.1 s1.2
  let s3 := plNationalityBlock s2.1 s2.2
  let s4 := plSchoolBlock s3.1 s3.2
  let s5 := plFormBlock s4.1 s4.2
  let s6 := plStateBlock s5.1 s5.2
  match reSearch rePLScoreTail s6.2 with
  | some m =>
    ⟨s6.1, some (pyStrip (matchGroup m 1)),
     some (pyToNat (matchGroup m 2) : Int), some (pyToNat (matchGroup m 3) : Int)⟩
  | none => ⟨s6.1, none, none, none⟩

/-! ## normalizer.py: section headers, metadata lines and the normalizer -/

/-- `METADATA_KEYS` of normalizer.py (lines 24-27). -/
def NORM_METADATA_KEYS : List String :=
  ["name", "student name", "gender", "state", "school", "school level",
   "form", "attendance", "nationality"]

/-- `SECTION_HEADERS` (normalizer.py lines 29-62): the many duplicate literal
keys of the source dict collapse to a single entry each, so the dict has five
keys, in first-insertion order. -/
def SECTION_HEADERS : List (String × String) :=
  [("subjects", "Subjects"), ("behaviour", "Behaviour"), ("behavior", "Behaviour"),
   ("co-curricular", "Co-curricular"), ("co curricular", "Co-curricular")]

/-- `_is_section_header` (normalizer.py lines 65-76). -/
def isSectionHeader (line : String) : Option String :=
  if line = "" then none
  else
    match SECTION_HEADERS.find? (fun kv => startsWithS (pyLower (pyStrip line)) kv.1) with
    | some kv => some kv.2
    | none =>
      if pyLower (pyStrip line) ∈
          ["subjects", "behaviour", "behavior", "co-curricular", "co curricular"] then
        dictGet SECTION_HEADERS (pyLower (pyStrip line))
      else none

/-- `_looks_like_metadata` (normalizer.py lines 78-88). -/
def looksLikeMetadataKey (line : String) : Option String :=
  match NORM_METADATA_KEYS.find? (fun k => startsWithS (pyLower line) k) with
  | some k => some k
  | none =>
    NORM_METADATA_KEYS.find? (fun k =>
      containsS (pyLower line) k ∧ 1 < (pySplitWs (pyLower line)).length)

/-- The fallback pattern `(.+?)\s+(\d{1,3})\b` (normalizer.py line 204). -/
def reMSimple : RE :=
  reSeq [.grp 1 (.rep 1 none true (.cls (fun c => c ≠ '\n'))), rePlus reSpace,
    .grp 2 (.rep 1 (some 3) false reDigit), .wordB]

def canonical5 : List String := ["Section", "Label", "Score", "Maximum", "Notes"]

/-- A canonical row [Section, Label, Score, Maximum, Notes]. -/
def mkNormRow (sec lab : String) (sc mx : Option String) : List Cell :=
  [Cell.str sec, Cell.str lab,
   (match sc with | some v => Cell.str v | none => Cell.null),
   (match mx with | some v => Cell.str v | none => Cell.null),
   Cell.null]

def getColIdx (f : Frame) (i : Nat) : List Cell := f.rows.map (fun r => r.getD i .null)

/-- The line list built by `normalize_uploaded_dataframe` (lines 137-147). -/
def buildLines (df : Frame) : List String :=
  if df.cols.length = 1 then
    ((getColIdx df 0).filter cellNotNull).map (fun c => pyStrip (cellStr c))
  else
    df.rows.filterMap (fun r =>
      let vals := (r.filter cellNotNull).map (fun c => pyStrip (cellStr c))
        |>.filter (fun v => v ≠ "")
      if vals.isEmpty then none else some (String.intercalate " " vals))

/-- The per-line tail of the normalizer loop: the simple "Label 74" pattern,
then the Misc fallback (lines 203-226). -/
def normTail (cur : Option String) (line : String) : List Cell :=
  match reSearch reMSimple line with
  | some m =>
    mkNormRow (cur.getD "Subjects") (pyStrip (matchGroup m 1)) (some (matchGroup m 2)) none
  | none =>
    mkNormRow (cur.getD "Misc") line none none

/-- The two-pass normalizer loop (normalizer.py lines 150-226): section
headers, metadata lines, direct score lines, the two-line lookahead, the
simple pattern, and the Misc fallback. -/
def normLoop (cur : Option String) : List String → List (List Cell)
  | [] => []
  | line0 :: rest =>
    match isSectionHeader (pyStrip line0) with
    | some sec => normLoop (some sec) rest
    | none =>
      match looksLikeMetadataKey (pyStrip line0) with
      | some _ =>
        mkNormRow "Student Details" (pyStrip line0) none none :: normLoop cur rest
      | none =>
        match extractScoreFromText (pyStrip line0) with
        | some ex =>
          if ex.score.isSome then
            mkNormRow (cur.getD "Subjects") ((ex.label).getD (pyStrip line0))
              ex.score ex.maximum :: normLoop cur rest
          else normLookahead cur (pyStrip line0) rest
        | none => normLookahead cur (pyStrip line0) rest
where
  normLookahead (cur : Option String) (line : String) :
      List String → List (List Cell)
    | [] => normTail cur line :: []
    | next :: rest2 =>
      match extractScoreFromText (line ++ " " ++ next) with
      | some ex2 =>
        if ex2.score.isSome then
          mkNormRow (cur.getD "Subjects") ((ex2.label).getD line)
            ex2.score ex2.maximum :: normLoop cur rest2
        else normTail cur line :: normLoop cur (next :: rest2)
      | none => normTail cur line :: normLoop cur (next :: rest2)

/-- `normalize_uploaded_dataframe` (normalizer.py lines 111-234). -/
def normalizeUploadedDataframe (df : Frame) : Frame :=
  if "Section" ∈ df.cols ∧ "Label" ∈ df.cols then
    ⟨canonical5,
     df.rows.map (fun r => canonical5.map (fun c =>
       if c = "Score" ∨ c = "Maximum" then
         toNumericCell (if c ∈ df.cols then rowGet df.cols r c Cell.null else Cell.null)
       else (if c ∈ df.cols then rowGet df.cols r c Cell.null else Cell.null)))⟩
  else
    ⟨canonical5,
     (normLoop none (buildLines df)).map (fun r =>
       [r.getD 0 Cell.null, r.getD 1 Cell.null, toNumericCell (r.getD 2 Cell.null),
        toNumericCell (r.getD 3 Cell.null), r.getD 4 Cell.null])⟩

/-! ## ocr_parser.py: `parse_ocr_text_to_dataframe` -/

/-- Anchored match `^pattern$` (`re.match` with a trailing `$`). -/
def reMatchStart (r : RE) (s : String) : Option ReMatch :=
  match reM (reFuel s.data) (.cat r .eol) ⟨none, s.data, []⟩ some with
  | some s1 => some ⟨0, s.data.length - s1.rest.length, s1.caps⟩
  | none => none

def splitOnCharGo (sep : Char) (acc : List Char) : List Char → List String
  | [] => [⟨acc.reverse⟩]
  | c :: t =>
    if c = sep then (⟨acc.reverse⟩ : String) :: splitOnCharGo sep [] t
    else splitOnCharGo sep (c :: acc) t

/-- Python `str.split(sep)` for a one-character separator. -/
def splitOnChar (sep : Char) (s : String) : List String := splitOnCharGo sep [] s.data

/-- The `section_headers` patterns (ocr_parser.py lines 222-227), in dict
insertion order. -/
def ocrSectionPatterns : List (String × RE) :=
  [("subjects", .cat .wordB (.cat (.grp 1 (.alt
      (.cat (reStr "Subject") (reOpt (reLit 's')))
      (reSeq [reStr "Subject", rePlus reSpace, reStr "Score", reOpt (reLit 's')]))) .wordB)),
   ("co_curricular", .cat .wordB (.cat (.grp 1 (.alt
      (reSeq [reStrCI "Co", reOpt (reLitCI '-'), reStrCI "curricular"])
      (reStrCI "Achievement"))) .wordB)),
   ("behaviour", .cat .wordB (.cat (.grp 1 (reAlts
      [reStr "Behaviour", reStr "Behavior", reStr "Ratings"])) .wordB)),
   ("student", .cat .wordB (.cat (.grp 1 (reAlts
      [reStr "Student", reStr "Details", reStr "Betalls"])) .wordB))]

/-- Section detection (lines 234-238): first matching pattern wins. -/
def ocrDetectSection (line : String) : Option String :=
  (ocrSectionPatterns.find? (fun p => (reSearch p.2 line).isSome)).map
    (fun p => pythonTitle (pyReplace p.1 "_" " "))

/-- `^([A-Za-z\s]+?)\s+([A-Za-z]+)$` (line 259). -/
def reOcrKv : RE :=
  reSeq [.grp 1 (.rep 1 none true (.cls (fun c => isAlphaC c || isSpaceC c))),
    rePlus reSpace, .grp 2 (rePlus (.cls isAlphaC))]

/-- Rows produced from a '|'-separated line (lines 241-266). -/
def ocrPipeParts (line : String) : List (List (String × Cell)) :=
  ((splitOnChar '|' line).map pyStrip).filterMap (fun part =>
    if part = "" then none
    else
      match reSearch rePLScoreTail part with
      | some m =>
        some [("Section", Cell.str "Subjects"),
          ("Label", Cell.str (pyStrip (matchGroup m 1))),
          ("Score", Cell.num (pyToNat (matchGroup m 2) : Rat)),
          ("Maximum", Cell.num (pyToNat (matchGroup m 3) : Rat))]
      | none =>
        match reMatchStart reOcrKv part with
        | some m =>
          some [("Section", Cell.str "Behaviour"),
            ("Label", Cell.str (pyStrip (matchGroup m 1))),
            ("Value", Cell.str (pyStrip (matchGroup m 2)))]
        | none => none)

/-- The tail of the per-line processing: the anchored simple score line, then
the co-curricular keyword line (lines 291-307). -/
def ocrSimpleTail (line : String) : List (List (String × Cell)) :=
  match reMatchStart rePLScoreTail line with
  | some m =>
    [[("Section", Cell.str "Subjects"),
      ("Label", Cell.str (pyStrip (matchGroup m 1))),
      ("Score", Cell.num (pyToNat (matchGroup m 2) : Rat)),
      ("Maximum", Cell.num (pyToNat (matchGroup m 3) : Rat))]]
  | none =>
    if ["Club", "Winner", "Member", "Team", "Award"].any (fun k => containsS line k) then
      [[("Section", Cell.str "Co-curricular"), ("Label", Cell.str line)]]
    else []

/-- The main line loop of `parse_ocr_text_to_dataframe` (lines 229-307).  The
`current_section` cursor is threaded as in the source, although no row
constructor reads it. -/
def ocrLoop (haveName : Bool) (cur : Option String) :
    List String → List (List (String × Cell))
  | [] => []
  | raw :: rest =>
    if pyStrip raw = "" ∨ containsS (pyStrip raw) "Malaysian High School" ∨
        containsS (pyStrip raw) "Student Betalls" ∨
        containsS (pyStrip raw) "Subject Scores" then
      ocrLoop haveName cur rest
    else
      if containsS (pyStrip raw) "|" then
        ocrPipeParts (pyStrip raw) ++
          ocrLoop haveName ((ocrDetectSection (pyStrip raw)).orElse (fun _ => cur)) rest
      else
        ocrMetaRows haveName (pyStrip raw) ++
          ocrLoop haveName ((ocrDetectSection (pyStrip raw)).orElse (fun _ => cur)) rest
where
  ocrMetaRows (haveName : Bool) (line : String) : List (List (String × Cell)) :=
    (parseLineWithMetadataAndScore line).metadata.filterMap (fun kv =>
      if kv.1 = "Student Name" ∧ haveName then none
      else some [("Section", Cell.str "Student Details"),
        ("Label", Cell.str kv.1), ("Value", Cell.str kv.2)]) ++
    (match (parseLineWithMetadataAndScore line).subject,
        (parseLineWithMetadataAndScore line).score,
        (parseLineWithMetadataAndScore line).maximum with
     | some subj, some sc, some mx =>
       if subj ≠ "" ∧ sc ≠ 0 ∧ mx ≠ 0 then
         [[("Section", Cell.str "Subjects"), ("Label", Cell.str subj),
           ("Score", Cell.num (sc : Rat)), ("Maximum", Cell.num (mx : Rat))]]
       else ocrSimpleTail line
     | _, _, _ => ocrSimpleTail line)

/-- The union of row keys in first-appearance order (the columns of
`pd.DataFrame(rows)`). -/
def ocrUsedCols (rows : List (List (String × Cell))) : List String :=
  rows.foldl (fun acc r =>
    r.foldl (fun acc2 kv => if kv.1 ∈ acc2 then acc2 else acc2 ++ [kv.1]) acc) []

/-- A column is entirely missing-or-null across the rows (dropped by
`dropna(axis=1, how="all")`). -/
def rowsAllNullAt (rows : List (List (String × Cell))) (c : String) : Bool :=
  rows.all (fun r => match dictGet r c with | some v => v == Cell.null | none => true)

def ocrCanonicalOrder : List String := ["Section", "Label", "Value", "Score", "Maximum"]

def parseOcrRows (text : String) : List (List (String × Cell)) :=
  (match extractStudentNameFromOcr text with
   | some n =>
     [[("Section", Cell.str "Student Details"), ("Label", Cell.str "Student Name"),
       ("Value", Cell.str n)]]
   | none => []) ++
  ocrLoop (extractStudentNameFromOcr text).isSome none (splitOnNl text)

def ocrFinalCols (rows : List (List (String × Cell))) : List String :=
  if rows.isEmpty then ocrCanonicalOrder
  else ocrCanonicalOrder.filter (fun c => c ∈ ocrUsedCols rows ∧ ¬rowsAllNullAt rows c)

/-- `parse_ocr_text_to_dataframe` (ocr_parser.py lines 196-323). -/
def parseOcrTextToDataframe (text : String) : Frame :=
  ⟨ocrFinalCols (parseOcrRows text),
   (parseOcrRows text).map (fun r => (ocrFinalCols (parseOcrRows text)).map (fun c =>
     if c = "Score" ∨ c = "Maximum" then toNumericCell ((dictGet r c).getD Cell.null)
     else (dictGet r c).getD Cell.null))⟩

/-! ## behaviour_extractor.py -/

/-- `_CANONICAL_RATINGS` (behaviour_extractor.py line 23).  The source value
is a Python `set`; its iteration order is interpreter-dependent, so a fixed
order is chosen here.  No claim below depends on the order. -/
def CANONICAL_RATINGS : List String :=
  ["Excellent", "Good", "Fair", "Poor", "Bad", "Very Good"]

/-- `_RATING_NORMALIZATION` (lines 26-34), in dict insertion order. -/
def RATING_NORMALIZATION : List (String × String) :=
  [("g00d", "Good"), ("g0od", "Good"), ("go0d", "Good"),
   ("0k", "Fair"), ("very good", "Very Good"), ("verygood", "Very Good"),
   ("excellent", "Excellent"), ("good", "Good"), ("fair", "Fair"),
   ("average", "Fair"), ("avg", "Fair"), ("ok", "Fair"), ("okay", "Fair"),
   ("poor", "Poor"), ("p00r", "Poor"), ("bad", "Bad"), ("b4d", "Bad"),
   ("b@d", "Bad"), ("satisfactory", "Good"), ("unsatisfactory", "Poor")]

/-- The character-substitution OCR repair of `_normalize_rating_token`
(line 47): `0→o, 1→l, 5→s, @→a, 4→a, $→s`.  The six replacements commute
(no output character is a later input character), so one pass suffices. -/
def ratingFix (t : String) : String :=
  ⟨t.data.map (fun c =>
    if c = '0' then 'o' else if c = '1' then 'l' else if c = '5' then 's'
    else if c = '@' then 'a' else if c = '4' then 'a' else if c = '$' then 's'
    else c)⟩

/-- `_normalize_rating_token` (lines 36-58). -/
def normalizeRatingToken (token : String) : Option String :=
  if token = "" then none
  else
    match CANONICAL_RATINGS.find? (fun r => pyLower (pyStrip token) = pyLower r) with
    | some r => some r
    | none =>
      match dictGet RATING_NORMALIZATION (pyLower (pyStrip token)) with
      | some v => some v
      | none =>
        match dictGet RATING_NORMALIZATION (ratingFix (pyLower (pyStrip token))) with
        | some v => some v
        | none =>
          match CANONICAL_RATINGS.find?
              (fun r => ratingFix (pyLower (pyStrip token)) = pyLower r) with
          | some r => some r
          | none =>
            CANONICAL_RATINGS.find?
              (fun r => containsS (ratingFix (pyLower (pyStrip token))) (pyLower r))

/-- Modelled from the spec: tier 1 of the rating cascade, exact
case-insensitive match against the canonical set. -/
def ratingTierExact (t : String) : Option String :=
  CANONICAL_RATINGS.find? (fun r => t = pyLower r)

/-- Modelled from the spec: tier 2, lookup in the variant/synonym table. -/
def ratingTierTable (t : String) : Option String :=
  dictGet RATING_NORMALIZATION t

/-- Modelled from the spec: tier 3, character-substitution repair re-checked
against the same table and the canonical set. -/
def ratingTierRepaired (t : String) : Option String :=
  match dictGet RATING_NORMALIZATION (ratingFix t) with
  | some v => some v
  | none => CANONICAL_RATINGS.find? (fun r => ratingFix t = pyLower r)

/-- Modelled from the spec: tier 4, substring containment of a canonical
rating in the repaired token. -/
def ratingTierSubstring (t : String) : Option String :=
  CANONICAL_RATINGS.find? (fun r => containsS (ratingFix t) (pyLower r))

/-- Modelled from the spec (§4.3): the rating-normalization cascade, the four
tiers attempted in order on the stripped lowercased token. -/
def ratingCascadeSpec (token : String) : Option String :=
  if token = "" then none
  else
    match ratingTierExact (pyLower (pyStrip token)) with
    | some r => some r
    | none =>
      match ratingTierTable (pyLower (pyStrip token)) with
      | some r => some r
      | none =>
        match ratingTierRepaired (pyLower (pyStrip token)) with
        | some r => some r
        | none => ratingTierSubstring (pyLower (pyStrip token))

/-- `_clean_attribute` (lines 61-64): map characters outside the class of
word characters, whitespace, hyphen, slash, ampersand and apostrophe to
spaces, collapse whitespace, strip, then `str.title()`. -/
def cleanAttribute (s : String) : String :=
  pythonTitle (pyStrip (collapseWs
    ⟨s.data.map (fun c =>
      if isWordC c || isSpaceC c || c = '-' || c = '/' || c = '&' || c = '\'' then c
      else ' ')⟩))

/-- `_rating_tokens` (lines 67-70): the union of the table keys and the
lowercased canonical ratings, sorted by decreasing length.  The sort's tie
order depends on set iteration and is fixed here; equal-length literal
alternatives never compete for the same match, so no claim depends on it. -/
def ratingAlternationTokens : List String :=
  ["unsatisfactory", "satisfactory", "very good", "excellent", "verygood",
   "average", "poor", "g0od", "good", "p00r", "go0d", "fair", "okay", "g00d",
   "avg", "bad", "b@d", "b4d", "0k", "ok"]

def reRatingAlt : RE := reAlts (ratingAlternationTokens.map reStrCI)

def attrWordC (c : Char) : Bool :=
  isAlphaC c || c = '\'' || c = '&' || c = '-' || c = '/'

/-- One attribute word of `_STRICT_PATTERN`: a letter followed by up to 20
letters, apostrophes, ampersands, hyphens or slashes. -/
def reAttrWord : RE := .cat (.cls isAlphaC) (.rep 0 (some 20) false (.cls attrWordC))

def sepPuncC (c : Char) : Bool := c = ':' || c = '-' || c = '–' || c = '—'

/-- `_STRICT_PATTERN` (lines 73-83): a 1-5 word attribute phrase, a
separator, then a word-bounded rating token (attr = group 1, rating =
group 2). -/
def reStrictPattern : RE :=
  reSeq [.grp 1 (.cat reAttrWord (.rep 0 (some 4) false (.cat (rePlus reSpace) reAttrWord))),
    reStar reSpace,
    .alt (.cat (.cls sepPuncC) (reStar reSpace)) (rePlus reSpace),
    .grp 2 (reSeq [.wordB, reRatingAlt, .wordB])]

/-- `_RATING_TOKEN_RE` (line 86); the whole match is read back as group 1. -/
def reRatingToken : RE := .grp 1 (reSeq [.wordB, reRatingAlt, .wordB])

/-- `_WORD_RE` (line 87); the whole match is read back as group 1. -/
def reWordToken : RE := .grp 1 (.rep 1 (some 30) false (.cls attrWordC))

/-- The `(word, start, end)` token list of `_fallback_extract_pairs`. -/
def fallbackWords (text : String) : List (String × Nat × Nat) :=
  (reFindIter reWordToken text).map (fun m => (matchGroup m 1, m.start, m.stop))

/-- The backward walk of `_fallback_extract_pairs` (lines 110-119): collect
up to 5 preceding words, nearest first, skipping score-like and lone
punctuation tokens; prepending restores text order. -/
def fbPick (acc : List String) : List String → List String
  | [] => acc
  | w :: t =>
    if 5 ≤ acc.length then acc
    else if w.data.any (fun c => isDigitC c || c = '/') then fbPick acc t
    else if w.length = 1 ∧ ¬(isAlphaC (w.data.headD ' ')) then fbPick acc t
    else fbPick (w :: acc) t

/-- One rating match of the fallback loop (lines 94-126). -/
def fbStep (words : List (String × Nat × Nat)) (res : List (String × String))
    (m : ReMatch) : List (String × String) :=
  match normalizeRatingToken (matchGroup m 1) with
  | none => res
  | some rating =>
    if (words.takeWhile (fun w => w.2.2 ≤ m.start)).isEmpty then res
    else
      match fbPick [] (((words.takeWhile (fun w => w.2.2 ≤ m.start)).reverse).map (fun w => w.1)) with
      | [] => res
      | toks =>
        if cleanAttribute (String.intercalate " " toks) = "" then res
        else dictSet res (cleanAttribute (String.intercalate " " toks)) rating

/-- `_fallback_extract_pairs` (lines 90-126). -/
def fallbackExtractPairs (text : String) : List (String × String) :=
  (reFindIter reRatingToken text).foldl (fbStep (fallbackWords text)) []

/-- One strict-pass match (lines 153-161). -/
def strictStep (res : List (String × String)) (m : ReMatch) :
    List (String × String) :=
  match normalizeRatingToken (pyStrip (matchGroup m 2)) with
  | none => res
  | some rating =>
    if cleanAttribute (pyStrip (matchGroup m 1)) = "" then res
    else dictSet res (cleanAttribute (pyStrip (matchGroup m 1))) rating

/-- The pre-clean of `extract_behaviour_from_text` (lines 140-150): split
lines, drop blanks, keep the left segment of '|'-separated lines. -/
def behaviourPreClean (text : String) : String :=
  String.intercalate "\n" ((splitOnNl (pyReplace text "\r" "\n")).filterMap
    (fun line =>
      if pyStrip line = "" then none
      else if containsS line "|" then some (pyStrip ((splitOnChar '|' line).headD ""))
      else some (pyStrip line)))

def behaviourStrictResults (t : String) : List (String × String) :=
  (reFindIter reStrictPattern t).foldl strictStep []

def behaviourRawResults (t : String) : List (String × String) :=
  if (behaviourStrictResults t).isEmpty then fallbackExtractPairs t
  else behaviourStrictResults t

/-- The final cleanup of `extract_behaviour_from_text` (lines 177-184): drop
attributes containing a digit or longer than 60 characters. -/
def behaviourFinalStep (fin : List (String × String)) (kv : String × String) :
    List (String × String) :=
  if kv.1.data.any isDigitC then fin
  else if 60 < kv.1.length then fin
  else dictSet fin kv.1 kv.2

/-- `extract_behaviour_from_text` (lines 129-186). -/
def extractBehaviourFromText (text : String) : List (String × String) :=
  if text = "" then []
  else (behaviourRawResults (behaviourPreClean text)).foldl behaviourFinalStep []

/-- First column index whose lowercased name equals `name`
(`[c.lower() for c in df.columns].index(name)`). -/
def colIndexOfLower (cols : List String) (name : String) : Option Nat :=
  (cols.map pyLower).indexOf? name

/-- `str(row.get(col, "")).strip()` with an optional column. -/
def dfCellStr (i : Option Nat) (r : List Cell) : String :=
  match i with
  | some j => pyStrip (cellStr (r.getD j .null))
  | none => ""

/-- One behaviour row of `extract_behaviour_from_dataframe` (lines 210-222). -/
def dfStep (li vi : Option Nat) (res : List (String × String)) (r : List Cell) :
    List (String × String) :=
  if dfCellStr li r ≠ "" ∧ dfCellStr vi r ≠ "" ∧ pyLower (dfCellStr vi r) ≠ "nan" then
    match normalizeRatingToken (dfCellStr vi r) with
    | some rating =>
      if cleanAttribute (dfCellStr li r) = "" then res
      else dictSet res (cleanAttribute (dfCellStr li r)) rating
    | none => res
  else res

/-- `extract_behaviour_from_dataframe` (lines 189-223): rows whose Section
cell contains "behaviour" case-insensitively; no digit/length filter is
applied on this path. -/
def extractBehaviourFromDataframe (df : Frame) : List (String × String) :=
  if frameEmpty df then []
  else
    match colIndexOfLower df.cols "section" with
    | none => []
    | some si =>
      (df.rows.filter (fun r =>
        containsS (pyLower (cellStr (r.getD si .null))) "behaviour")).foldl
        (dfStep (colIndexOfLower df.cols "label") (colIndexOfLower df.cols "value")) []

/-- `extract_behaviour_pairs` (lines 226-241).  The `try/except` guards never
fire in this embedding: neither extraction function raises. -/
def extractBehaviourPairs (df : Option Frame) (text : Option String) :
    List (String × String) :=
  if (match df with | some f => extractBehaviourFromDataframe f | none => []).isEmpty then
    match text with
    | some t => if t = "" then [] else extractBehaviourFromText t
    | none => []
  else
    match df with | some f => extractBehaviourFromDataframe f | none => []

instance {e a : Type} [DecidableEq e] [DecidableEq a] : DecidableEq (Except e a) :=
  fun x y =>
    match x, y with
    | .error u, .error v =>
      if h : u = v then isTrue (by rw [h])
      else isFalse (fun hc => h (Except.error.inj hc))
    | .error _, .ok _ => isFalse (fun hc => Except.noConfusion hc)
    | .ok _, .error _ => isFalse (fun hc => Except.noConfusion hc)
    | .ok u, .ok v =>
      if h : u = v then isTrue (by rw [h])
      else isFalse (fun hc => h (Except.ok.inj hc))

/-! ## top5.py -/

/-- `TWO_WORD_SUBJECTS` (top5.py lines 8-24). -/
def TWO_WORD_SUBJECTS : List String :=
  ["bahasa malaysia", "physical education", "social science", "computer science",
   "moral education", "additional mathematics", "general science",
   "environmental science", "information technology", "class participation",
   "community service", "chess club", "football", "club", "sejarah (history)"]

/-- `skip_words` (lines 63 and 111). -/
def SKIP_WORDS : List String :=
  ["and", "the", "for", "with", "in", "on", "at", "to", "of"]

/-- The backward word scan `for word in reversed(words): ...` with its
`for`-`else` default `words[-1].title()` (lines 64-69). -/
def lastSignificantWord (words : List String) : String :=
  match words.reverse.find? (fun w => ¬(w ∈ SKIP_WORDS) ∧ 1 < w.length) with
  | some w => pythonTitle w
  | none => pythonTitle (words.reverse.headD "")

/-- Python `float(cell)`.  `float(NaN)` succeeds with `NaN`, but `NaN > 0` is
false, so mapping a null cell to `none` (the caught ValueError/TypeError
branch) gives the same behaviour as the source. -/
def cellFloat : Cell → Option Rat
  | .num q => some q
  | .str v => pyFloatOfString v
  | .null => none

/-- The `label_clean` computed for one structured row (lines 50-69), `none`
when the source leaves the variable unassigned (empty split). -/
def s1LabelClean (labelVal : String) : Option String :=
  match TWO_WORD_SUBJECTS.find? (fun t => containsS (pyLower labelVal) t) with
  | some t => some (pythonTitle t)
  | none =>
    match pySplitWs labelVal with
    | [] => none
    | w :: ws => some (lastSignificantWord (w :: ws))

/-- Strategy 1 of `extract_numeric_pairs_from_data` (lines 41-76).  The
`label_clean` local leaks across loop iterations; `leak` carries its last
value, and reading it unassigned is the uncaught `NameError` (the `except`
clause lists only ValueError and TypeError). -/
def strategy1 (cols : List String) (leak : Option String) :
    List (List Cell) → Except String (List (String × Rat))
  | [] => .ok []
  | r :: rest =>
    match cellFloat (rowGet cols r "Score" .null) with
    | none => strategy1 cols leak rest
    | some q =>
      if 0 < q then
        match s1LabelClean (pyStrip (cellStr (rowGet cols r "Label" (.str "")))) with
        | some lc =>
          match strategy1 cols (some lc) rest with
          | .ok ps => .ok ((lc, q) :: ps)
          | .error e => .error e
        | none =>
          match leak with
          | some lc =>
            match strategy1 cols (some lc) rest with
            | .ok ps => .ok ((lc, q) :: ps)
            | .error e => .error e
          | none => .error "NameError"
      else strategy1 cols leak rest

def azC (c : Char) : Bool := 'a' ≤ c && c ≤ 'z'

def azSpC (c : Char) : Bool := azC c || isSpaceC c

/-- Pattern 1 of strategy 2 (line 87). -/
def reS2P1 : RE :=
  reSeq [.grp 1 (.cat (.rep 1 none false (.cls azSpC)) (.cls azC)),
    reOpt (reLit ':'), reStar reSpace, .grp 2 (rePlus reDigit),
    reStar reSpace, reOpt (reSeq [reLit '/', reStar reSpace, rePlus reDigit])]

/-- Pattern 2 of strategy 2 (line 88). -/
def reS2P2 : RE :=
  reSeq [.grp 1 (.cat (.rep 1 none false (.cls azSpC)) (.cls azC)),
    rePlus reSpace, .grp 2 (rePlus reDigit),
    reStar reSpace, reOpt (reSeq [reLit '/', reStar reSpace, rePlus reDigit])]

/-- Pattern 3 of strategy 2 (line 89). -/
def reS2P3 : RE :=
  reSeq [.grp 1 (.cat (.rep 1 none false (.cls azSpC))
      (reOpt (reSeq [reLit '(', rePlus (.cls (fun c => c ≠ ')')), reLit ')']))),
    reOpt (reLit ':'), reStar reSpace, .grp 2 (rePlus reDigit)]

/-- One `(label, score)` match of strategy 2 (lines 94-122). -/
def s2Process (g1 g2 : String) : Option (String × Rat) :=
  if g1 ≠ "" ∧ g2 ≠ "" then
    match TWO_WORD_SUBJECTS.find? (fun t => containsS (pyStrip g1) t) with
    | some t => some (pythonTitle t, ((pyToNat g2 : Int) : Rat))
    | none =>
      match pySplitWs (pyStrip g1) with
      | [] => some (pyStrip g1, ((pyToNat g2 : Int) : Rat))
      | w :: ws => some (lastSignificantWord (w :: ws), ((pyToNat g2 : Int) : Rat))
  else none

/-- Strategy 2 on one cell (lines 80-122): the three patterns run over the
lowercased stripped cell text. -/
def strategy2Cell (c : Cell) : List (String × Rat) :=
  if pyStrip (cellStr c) = "" ∨ pyLower (pyStrip (cellStr c)) = "nan" then []
  else
    ([reS2P1, reS2P2, reS2P3].flatMap
      (fun p => reFindAll p 2 (pyLower (pyStrip (cellStr c))))).filterMap
      (fun gs => s2Process (gs.getD 0 "") (gs.getD 1 ""))

/-- A pandas row always has one cell per column. -/
def rowCells (ncols : Nat) (r : List Cell) : List Cell :=
  (List.range ncols).map (fun i => r.getD i .null)

/-- Stable insertion by descending Score: among equal scores the earlier
pair stays first.  (`sort_values` uses numpy quicksort, whose order among
ties is unspecified; a stable order is fixed here.  No claim depends on the
tie order.) -/
def insertDesc (p : String × Rat) : List (String × Rat) → List (String × Rat)
  | [] => [p]
  | q :: t => if q.2 ≤ p.2 then p :: q :: t else q :: insertDesc p t

/-- `sort_values("Score", ascending=False)` on a pair list. -/
def sortByScoreDesc (l : List (String × Rat)) : List (String × Rat) :=
  l.foldr insertDesc []

/-- `drop_duplicates(subset=["Label"], keep="first")`. -/
def dedupByLabel (seen : List String) : List (String × Rat) → List (String × Rat)
  | [] => []
  | p :: t =>
    if p.1 ∈ seen then dedupByLabel seen t
    else p :: dedupByLabel (p.1 :: seen) t

/-- The sort-then-deduplicate step of lines 128-130. -/
def sortDedup (l : List (String × Rat)) : List (String × Rat) :=
  dedupByLabel [] (sortByScoreDesc l)

/-- `extract_numeric_pairs_from_data` (lines 30-134), as a pair list
(`Label`, `Score`); an empty list stands for the empty DataFrame. -/
def extractNumericPairsFromData (df : Frame) : Except String (List (String × Rat)) :=
  if frameEmpty df then .ok []
  else
    match (if "Label" ∈ df.cols ∧ "Score" ∈ df.cols
           then strategy1 df.cols none df.rows else .ok []) with
    | .error e => .error e
    | .ok s1 =>
      .ok (sortDedup (s1 ++
        df.rows.flatMap (fun r => (rowCells df.cols.length r).flatMap strategy2Cell)))

/-- The column indices kept by `dropna(axis=1, how="all")`. -/
def keepColIdxs (df : Frame) : List Nat :=
  (List.range df.cols.length).filter
    (fun i => (df.rows.map (fun r => r.getD i .null)).any cellNotNull)

/-- `df.dropna(axis=1, how="all")`. -/
def dropAllNullCols (df : Frame) : Frame :=
  ⟨(keepColIdxs df).map (fun i => df.cols.getD i ""),
   df.rows.map (fun r => (keepColIdxs df).map (fun i => r.getD i .null))⟩

/-- The cleaned frame of `get_top5_numerical_rows` (lines 148-152): stripped
column names, all-null columns dropped. -/
def top5Clean (df : Frame) : Frame :=
  dropAllNullCols ⟨df.cols.map pyStrip, df.rows⟩

/-- `get_top5_numerical_rows` (lines 140-166). -/
def getTop5NumericalRows (df : Frame) : Except String (List (String × Rat)) :=
  if frameEmpty df then .ok []
  else if frameEmpty (top5Clean df) then .ok []
  else
    match extractNumericPairsFromData (top5Clean df) with
    | .error e => .error e
    | .ok ps =>
      if ps.isEmpty then .ok []
      else .ok ((sortByScoreDesc ps).take 5)

/-! ## text_name.py -/

/-- The alternatives of `_collapse_spaced_letters` (text_name.py line 21):
a word-bounded run of at least 3 single letters separated by whitespace. -/
def reSpacedLetters : RE :=
  .cat .wordB (.cat (.rep 2 none false (.cat (.cls isAlphaC) (.cls isSpaceC)))
    (.cat (.cls isAlphaC) .wordB))

/-- `_collapse_spaced_letters` (lines 12-22): the replacement drops the
space characters of the match (`.replace(" ", "")`). -/
def collapseSpacedLetters (text : String) : String :=
  reSubFn reSpacedLetters (fun cs => cs.filter (fun c => c ≠ ' ')) text

def reMultiSpaceTab : RE := .rep 2 none false (.cls (fun c => c = ' ' || c = '\t'))

def reMultiNl : RE := .rep 2 none false (.cls (fun c => c = '\n'))

/-- `_normalize_text` (lines 25-35). -/
def normalizeTextTN (text : String) : String :=
  pyStrip (reSubAll reMultiNl "\n\n" (reSubAll reMultiSpaceTab " "
    (collapseSpacedLetters (pyReplace (pyReplace text "\r\n" "\n") "\r" "\n"))))

/-- `phrases` (lines 49-59), in source order (with the duplicate). -/
def tnPhrases : List String :=
  ["this certifies that", "this certificate is proudly presented to",
   "presented to", "this to certify that", "this certificate is presented to",
   "this certificate of completion is presented to",
   "this certificate is awarded to", "this certifies that the",
   "this certifies that"]

/-- A name character: the patterns are compiled with `re.IGNORECASE`, so the
leading `[A-Z]` matches any letter.  The backquote of the source class is
written via its code point. -/
def tnNameCharB (c : Char) : Bool :=
  isAlphaC c || c = '\'' || c = Char.ofNat 96 || c = '.' || c = '-'

/-- One name word: a letter followed by one or more name characters. -/
def reTnNameWord : RE := .cat (.cls isAlphaC) (rePlus (.cls tnNameCharB))

/-- Up to five name words separated by whitespace. -/
def reTnNameSeq : RE :=
  .cat reTnNameWord (.rep 0 (some 4) false (.cat (rePlus reSpace) reTnNameWord))

def tnSepPuncB (c : Char) : Bool := c = ':' || c = '-' || c = '–' || c = '—'

/-- The block pattern for one phrase (lines 64-67): phrase, optional
separator, newline, the captured name, then the lookahead. -/
def mkTnBlockRE (phrase : String) : RE :=
  reSeq [reStrCI phrase, reStar reSpace,
    reOpt (.cat (reOpt (.cls tnSepPuncB)) (reStar reSpace)),
    reLit '\n', reStar reSpace, .grp 1 reTnNameSeq, reStar reSpace,
    .look (.alt (reLit '\n') (.alt .eol
      (.cls (fun c => c = '.' || c = ',' || c = ';' || c = ':' || c = '!' || c = '?'))))]

/-- The inline pattern for one phrase (lines 75-78): name followed by a
stop-word or punctuation lookahead. -/
def mkTnInlineRE (phrase : String) : RE :=
  reSeq [reStrCI phrase, reStar reSpace,
    reOpt (.cat (reOpt (.cls tnSepPuncB)) (reStar reSpace)),
    .grp 1 reTnNameSeq,
    .look (.cat (reStar reSpace) (reAlts
      [.cat (reStrCI "has") .wordB, .cat (reStrCI "was") .wordB,
       .cat (reStrCI "completed") .wordB, .cat (reStrCI "successfully") .wordB,
       reLit ',', reLit '\n', .eol, reLit '.']))]

def blobBlockSearch (t : String) : Option String :=
  tnPhrases.findSome? (fun p =>
    (reSearch (mkTnBlockRE p) t).map (fun m => pyStrip (matchGroup m 1)))

def blobInlineSearch (t : String) : Option String :=
  tnPhrases.findSome? (fun p =>
    (reSearch (mkTnInlineRE p) t).map (fun m => pyStrip (matchGroup m 1)))

def ucAZ (c : Char) : Bool := 'A' ≤ c && c ≤ 'Z'

def lcAZ (c : Char) : Bool := 'a' ≤ c && c ≤ 'z'

/-- `all_caps_pattern` (line 84, compiled without IGNORECASE). -/
def reTnAllCaps : RE :=
  .cat .wordB (.cat (.grp 1 (.cat (.rep 2 none false (.cls ucAZ))
    (.rep 0 (some 4) false (.cat (rePlus reSpace) (.rep 2 none false (.cls ucAZ))))))
    .wordB)

/-- Fallback 1 (lines 84-96): the first word-bounded all-caps run of 1-3
words and fewer than 40 characters, short words kept as initials. -/
def blobAllCaps (t : String) : Option String :=
  (reFindIter reTnAllCaps t).findSome? (fun m =>
    if 1 ≤ (pySplitWs (pyStrip (matchGroup m 1))).length ∧
        (pySplitWs (pyStrip (matchGroup m 1))).length ≤ 3 ∧
        (pyStrip (matchGroup m 1)).length < 40 then
      some (String.intercalate " " ((pySplitWs (pyStrip (matchGroup m 1))).map
        (fun w => if w.length ≤ 2 ∧ pyIsUpper w then w else pyCapitalize w)))
    else none)

/-- `title_case_pattern` (line 99, compiled without IGNORECASE). -/
def reTnTitleCase : RE :=
  .cat .wordB (.cat (.grp 1 (.cat (.cat (.cls ucAZ) (rePlus (.cls lcAZ)))
    (.rep 1 (some 2) false (.cat (rePlus reSpace)
      (.cat (.cls ucAZ) (rePlus (.cls lcAZ)))))))
    .wordB)

/-- `_extract_from_text_blob` (lines 38-104). -/
def extractFromTextBlob (text : String) : Option String :=
  if text = "" then none
  else
    match blobBlockSearch (normalizeTextTN text) with
    | some n => some n
    | none =>
      match blobInlineSearch (normalizeTextTN text) with
      | some n => some n
      | none =>
        match blobAllCaps (normalizeTextTN text) with
        | some n => some n
        | none =>
          (reSearch reTnTitleCase (normalizeTextTN text)).map
            (fun m => pyStrip (matchGroup m 1))

/-- `extract_student_name` (lines 107-147) on a raw text blob: the file-path
branch (`os.path.exists`) and the bytes branch are outside this embedding;
for a text blob the guarded body reduces to the blob heuristics with the
"Student name not found" fallback, and the surrounding `try/except` never
fires because the blob extraction is total. -/
def extractStudentName (text : String) : String :=
  match extractFromTextBlob text with
  | some n => if n = "" then "Student name not found" else n
  | none => "Student name not found"

/-! ## analytics_statistics.py -/

/-- The statistics record of `compute_statistics` (analytics_statistics.py
lines 28-43).  `stdDev` holds the population variance: the source stores its
square root, an irrational real that `Rat` cannot represent; no claim
inspects the value.  `studentName` keeps the raw stored value, which the
source can set to a non-string cell (`value or label`). -/
structure Stats where
  rowCount : Nat
  columnCount : Nat
  numericColumns : List String
  averages : List (String × Rat)
  medians : List (String × Rat)
  stdDev : List (String × Rat)
  counts : List (String × Rat)
  studentName : Option Cell
  studentDetails : Option String
  subjects : List String
  subjectScores : List (String × Rat)
  activities : List String
  strength : Option String
  weakness : Option String
deriving DecidableEq

def isStrCell : Cell → Bool
  | .str _ => true
  | _ => false

/-- The in-place conversion of object-dtype columns to stripped strings
(lines 22-24); `astype(str)` turns a null cell into the string "nan". -/
def convertObjectCols (f : Frame) : Frame :=
  ⟨f.cols, f.rows.map (fun r => (List.range f.cols.length).map (fun i =>
    if objectColB (getColIdx f i) then Cell.str (pyStrip (cellStr (r.getD i .null)))
    else r.getD i .null))⟩

/-- The cleaned frame of `compute_statistics` (lines 19-24): stripped column
names, object columns converted to stripped strings. -/
def statsClean (df : Frame) : Frame :=
  convertObjectCols ⟨df.cols.map pyStrip, df.rows⟩

/-- `series.mean()` on the non-null values, as an exact rational. -/
def meanR (l : List Rat) : Rat := l.sum / (l.length : Rat)

def insertAsc (q : Rat) : List Rat → List Rat
  | [] => [q]
  | x :: t => if q ≤ x then q :: x :: t else x :: insertAsc q t

def sortRats (l : List Rat) : List Rat := l.foldr insertAsc []

/-- `series.median()` of the non-null values. -/
def medianR (l : List Rat) : Rat :=
  if l.length % 2 = 1 then (sortRats l).getD (l.length / 2) 0
  else ((sortRats l).getD (l.length / 2 - 1) 0 + (sortRats l).getD (l.length / 2) 0) / 2

/-- Population variance (`std(ddof=0)` squared). -/
def varianceR (l : List Rat) : Rat := meanR (l.map (fun x => (x - meanR l) ^ 2))

/-- `numeric_df.empty`. -/
def numericDfEmpty (f : Frame) : Bool :=
  ((frameColumns f).filter (fun p => numericColB p.2)).isEmpty || f.rows.isEmpty

/-- One `agg().dropna().to_dict()` over the numeric columns: the aggregate
of an all-null column is NaN and is dropped. -/
def statsNumericAgg (f : Frame) (agg : List Rat → Rat) : List (String × Rat) :=
  (frameColumns f).filterMap (fun p =>
    if numericColB p.2 then
      if (nonNulls p.2).isEmpty then none
      else some (p.1, agg (nonNulls p.2))
    else none)

/-- `numeric_df.count().dropna().to_dict()`: counts are integers, never
dropped. -/
def statsCounts (f : Frame) : List (String × Rat) :=
  (frameColumns f).filterMap (fun p =>
    if numericColB p.2 then some (p.1, ((nonNulls p.2).length : Rat)) else none)

/-- The metadata loop (lines 55-75).  `label.lower()` on a cell of a
non-object Label column (a float or NaN) raises an uncaught AttributeError. -/
def statsMetaLoop (cols : List String) (name : Option Cell)
    (gender state : Option String) :
    List (List Cell) → Except String (Option Cell × Option String × Option String)
  | [] => .ok (name, gender, state)
  | r :: rest =>
    match rowGet cols r "Label" (.str "") with
    | .str lab =>
      statsMetaLoop cols
        (if containsS (pyLower lab) "name" then
          match extractFullName (pyStrip (lab ++ " " ++
              cellStr (rowGet cols r "Value" (.str "")))) with
          | some n => some (.str n)
          | none =>
            if looksLikeName (pyStrip (lab ++ " " ++
                cellStr (rowGet cols r "Value" (.str "")))) then
              some (if cellTruthy (rowGet cols r "Value" (.str "")) then
                rowGet cols r "Value" (.str "") else .str lab)
            else name
         else name)
        (match extractGender (pyStrip (lab ++ " " ++
            cellStr (rowGet cols r "Value" (.str "")))) with
         | some g => some g
         | none => gender)
        (match extractState (pyStrip (lab ++ " " ++
            cellStr (rowGet cols r "Value" (.str "")))) with
         | some st => some st
         | none => state)
        rest
    | _ => .error "AttributeError"

/-- `student_details` assembly (lines 77-84). -/
def statsDetails (gender state : Option String) : Option String :=
  match gender, state with
  | none, none => none
  | some g, none => some ("Gender: " ++ g)
  | none, some st => some ("State: " ++ st)
  | some g, some st => some ("Gender: " ++ g ++ ", State: " ++ st)

/-- The subjects loop body (lines 95-109).  `raw_label.split()` on a
non-string cell would raise AttributeError (unreachable after the metadata
loop, which checks the same Label cells first). -/
def statsSubjLoop (cols : List String) (subs : List String)
    (scores : List (String × Rat)) :
    List (List Cell) → Except String (List String × List (String × Rat))
  | [] => .ok (subs, scores)
  | r :: rest =>
    match rowGet cols r "Label" (.str "") with
    | .str rawLabel =>
      if isValidSubject ((pySplitWs rawLabel).getLastD "") then
        statsSubjLoop cols (subs ++ [(pySplitWs rawLabel).getLastD ""])
          (dictSet scores ((pySplitWs rawLabel).getLastD "")
            (match toNumericCell (rowGet cols r "Score" .null) with
             | .num q => q
             | _ => 0))
          rest
      else
        match KNOWN_SUBJECTS_CS.find? (fun subj => containsS rawLabel subj) with
        | some subj =>
          statsSubjLoop cols (subs ++ [subj])
            (dictSet scores subj
              (match toNumericCell (rowGet cols r "Score" .null) with
               | .num q => q
               | _ => 0))
            rest
        | none => statsSubjLoop cols subs scores rest
    | _ => .error "AttributeError"

/-- The subjects block (lines 87-115): `df["Section"].str.contains` raises
AttributeError unless the Section column holds strings, then the rows whose
Section contains "Subjects" and whose Score coerces to a number feed the
loop. -/
def statsSubjects (f : Frame) : Except String (List String × List (String × Rat)) :=
  match f.cols.findIdx? (· = "Section") with
  | none => .ok ([], [])
  | some si =>
    if ¬((getColIdx f si).all isStrCell) then .error "AttributeError"
    else
      statsSubjLoop f.cols [] []
        ((f.rows.filter (fun r =>
          containsS (pyLower (cellStr (r.getD si .null))) "subjects")).filter
          (fun r => toNumericCell (rowGet f.cols r "Score" .null) ≠ .null))

/-- `max(valid_scores, key=valid_scores.get)`: the first key attaining the
maximum, in dict order. -/
def argmaxKey : List (String × Rat) → Option String
  | [] => none
  | (k, v) :: t => some (argmaxGo k v t)
where
  argmaxGo (k : String) (v : Rat) : List (String × Rat) → String
    | [] => k
    | (k2, v2) :: t => if v < v2 then argmaxGo k2 v2 t else argmaxGo k v t

/-- `min(valid_scores, key=valid_scores.get)`: the first key attaining the
minimum. -/
def argminKey : List (String × Rat) → Option String
  | [] => none
  | (k, v) :: t => some (argminGo k v t)
where
  argminGo (k : String) (v : Rat) : List (String × Rat) → String
    | [] => k
    | (k2, v2) :: t => if v2 < v then argminGo k2 v2 t else argminGo k v t

/-- The activity splitter of line 126. -/
def reActSplit : RE :=
  .alt (reSeq [reStar reSpace, reLit '|', reStar reSpace]) (reLit '/')

/-- The section pattern of line 134. -/
def reCoCurrSection : RE :=
  reAlts [reSeq [reStrCI "Co", reOpt (reLitCI '-'), reStrCI "curricular"],
    reStrCI "Activity", reStrCI "Activities"]

/-- The activity parts kept from one Label cell (lines 126-137). -/
def actParts (sectionStr lab : String) : List String :=
  (reSplit reActSplit lab).filterMap (fun part =>
    if pyStrip part = "" then none
    else if containsCoCurricularKeyword (pyStrip part) then some (pyStrip part)
    else if (reSearch reCoCurrSection sectionStr).isSome ∧
        ¬(containsMetadataKeyword (pyStrip part) = true) then some (pyStrip part)
    else none)

/-- The activities loop (lines 118-139).  A truthy non-string Label cell
would raise a TypeError in `re.split` (unreachable after the metadata
loop). -/
def statsActivitiesLoop (cols : List String) (acc : List String) :
    List (List Cell) → Except String (List String)
  | [] => .ok acc
  | r :: rest =>
    match rowGet cols r "Label" (.str "") with
    | .str lab =>
      if lab = "" then statsActivitiesLoop cols acc rest
      else statsActivitiesLoop cols
        (acc ++ actParts (cellStr (rowGet cols r "Section" (.str ""))) lab) rest
    | c =>
      if cellTruthy c then .error "TypeError"
      else statsActivitiesLoop cols acc rest

/-- `compute_statistics` (analytics_statistics.py lines 15-144).  There is no
`try/except`: the AttributeError/TypeError paths escape to the caller. -/
def computeStatistics (df : Frame) : Except String Stats :=
  match (if "Label" ∈ (statsClean df).cols then
         statsMetaLoop (statsClean df).cols none none none (statsClean df).rows
         else .ok (none, none, none)) with
  | .error e => .error e
  | .ok (nameC, gender, state) =>
    match (if "Section" ∈ (statsClean df).cols ∧ "Score" ∈ (statsClean df).cols
           then statsSubjects (statsClean df)
           else .ok ([], [])) with
    | .error e => .error e
    | .ok (subs, scores) =>
      match statsActivitiesLoop (statsClean df).cols [] (statsClean df).rows with
      | .error e => .error e
      | .ok acts =>
        .ok { rowCount := (statsClean df).rows.length,
              columnCount := (statsClean df).cols.length,
              numericColumns := ((frameColumns (statsClean df)).filter
                (fun p => numericColB p.2)).map Prod.fst,
              averages := if numericDfEmpty (statsClean df) then []
                else statsNumericAgg (statsClean df) meanR,
              medians := if numericDfEmpty (statsClean df) then []
                else statsNumericAgg (statsClean df) medianR,
              stdDev := if numericDfEmpty (statsClean df) then []
                else statsNumericAgg (statsClean df) varianceR,
              counts := if numericDfEmpty (statsClean df) then []
                else statsCounts (statsClean df),
              studentName := nameC,
              studentDetails := statsDetails gender state,
              subjects := subs,
              subjectScores := scores,
              activities := acts,
              strength := if scores.isEmpty then none else argmaxKey scores,
              weakness := if scores.isEmpty then none else argminKey scores }

/-! ## analytics_insights.py -/

/-- `series.tail(n)`. -/
def lastN (n : Nat) (l : List Rat) : List Rat := l.drop (l.length - n)

/-- The phrase chosen for one column (analytics_insights.py lines 40-45). -/
def predictPhrase (l : List Rat) : String :=
  if meanR l < meanR (lastN 3 l) then "Recent performance is above average."
  else if meanR (lastN 3 l) < meanR l then "Recent performance is below average."
  else "Performance is consistent."

/-- The insight computed for one numeric column of
`generate_predictive_insights` (lines 33-45): skipped for non-numeric
dtypes and for fewer than 3 non-null values. -/
def colInsight (cells : List Cell) : Option String :=
  if numericColB cells then
    if (nonNulls cells).length < 3 then none
    else some (predictPhrase (nonNulls cells))
  else none

/-- `generate_predictive_insights` (lines 26-48). -/
def generatePredictiveInsights (df : Frame) : List (String × String) :=
  (frameColumns df).foldl (fun ins p =>
    match colInsight p.2 with
    | some phrase => dictSet ins p.1 phrase
    | none => ins) []

end SLJS

namespace SLJS

/-! # Lemmas and claim theorems -/

/-! ## Character-class facts -/

theorem isSpaceC_iff (c : Char) :
    isSpaceC c = true ↔
      c = ' ' ∨ c = '\t' ∨ c = '\n' ∨ c = '\x0d' ∨ c = '\x0b' ∨ c = '\x0c' := by
  simp only [isSpaceC, Bool.or_eq_true, beq_iff_eq]
  tauto

theorem alpha_not_space {c : Char} (h : isAlphaC c = true) : isSpaceC c = false := by
  rw [Bool.eq_false_iff]
  intro hs
  rw [isSpaceC_iff] at hs
  rcases hs with rfl | rfl | rfl | rfl | rfl | rfl <;> exact absurd h (by decide)

theorem digit_not_space {c : Char} (h : isDigitC c = true) : isSpaceC c = false := by
  rw [Bool.eq_false_iff]
  intro hs
  rw [isSpaceC_iff] at hs
  rcases hs with rfl | rfl | rfl | rfl | rfl | rfl <;> exact absurd h (by decide)

theorem digit_ne_of_not_digit {c d : Char} (h : isDigitC c = true)
    (hd : isDigitC d = false) : c ≠ d := by
  intro hcd
  rw [hcd] at h
  rw [h] at hd
  exact absurd hd (by simp)

theorem alpha_not_digit {c : Char} (h : isAlphaC c = true) : isDigitC c = false := by
  rw [Bool.eq_false_iff]
  intro hd
  simp only [isDigitC, isAlphaC, Char.isDigit, Char.isAlpha, Char.isUpper, Char.isLower,
    Bool.or_eq_true, Bool.and_eq_true, decide_eq_true_eq] at h hd
  obtain ⟨h1, h2⟩ := hd
  have h1n : (48 : Nat) ≤ c.val.toNat := h1
  have h2n : c.val.toNat ≤ 57 := h2
  rcases h with ⟨ha, hb⟩ | ⟨ha, hb⟩
  · have han : (65 : Nat) ≤ c.val.toNat := ha
    have hbn : c.val.toNat ≤ 90 := hb
    omega
  · have han : (97 : Nat) ≤ c.val.toNat := ha
    have hbn : c.val.toNat ≤ 122 := hb
    omega

/-- Characters allowed in labels are neither digits nor separators nor
newlines. -/
theorem labelChar_props {c : Char} (h : labelCharB c = true) :
    isDigitC c = false ∧ c ≠ ':' ∧ c ≠ '-' ∧ c ≠ '\n' := by
  simp only [labelCharB, Bool.or_eq_true, beq_iff_eq] at h
  rcases h with h | rfl
  · refine ⟨alpha_not_digit h, ?_, ?_, ?_⟩ <;> rintro rfl <;> exact absurd h (by decide)
  · refine ⟨by decide, by decide, by decide, by decide⟩

/-! ## SCORE_RE matcher lemmas (for claim C2) -/

theorem leadDigits_cons_not {c : Char} (t : List Char) (h : isDigitC c = false) :
    leadDigits (c :: t) = 0 := by
  simp [leadDigits, List.takeWhile_cons, h]

theorem leadDigits_cons_digit {c : Char} (t : List Char) (h : isDigitC c = true) :
    leadDigits (c :: t) = leadDigits t + 1 := by
  simp [leadDigits, List.takeWhile_cons, h]

theorem leadDigits_all {d : List Char} (h : d.all isDigitC = true) :
    leadDigits d = d.length := by
  induction d with
  | nil => rfl
  | cons c t ih =>
    simp only [List.all_cons, Bool.and_eq_true] at h
    rw [leadDigits_cons_digit t h.1, ih h.2, List.length_cons]

theorem leadDigits_append_stop {d : List Char} {c : Char} (r : List Char)
    (hd : d.all isDigitC = true) (hc : isDigitC c = false) :
    leadDigits (d ++ c :: r) = d.length := by
  induction d with
  | nil => simpa using leadDigits_cons_not r hc
  | cons a t ih =>
    simp only [List.all_cons, Bool.and_eq_true] at hd
    rw [List.cons_append, leadDigits_cons_digit _ hd.1, ih hd.2, List.length_cons]

theorem altM_no_digit {cs : List Char} (h : leadDigits cs = 0) : altM cs = none := by
  simp [altM, alt1M, alt2M, alt3M, h, alt1Try, alt2Try]

theorem restM_none {c : Char} {r : List Char}
    (hd : isDigitC c = false) (hc : c ≠ ':') (hc2 : c ≠ '-') :
    restM (c :: r) = none := by
  simp only [restM]
  rw [if_neg (by tauto)]
  exact altM_no_digit (leadDigits_cons_not r hd)

theorem restM_digit_head {c : Char} {r : List Char} (hd : isDigitC c = true) :
    restM (c :: r) = altM (c :: r) := by
  simp only [restM]
  rw [if_neg]
  rintro (rfl | rfl) <;> exact absurd hd (by decide)

theorem labelTry_through {G : ScoreGroups} {T : List Char} (hT : restM T = some G) :
    ∀ (mid acc : List Char), mid.all labelCharB = true →
      labelTry acc (mid ++ ' ' :: T) = some (acc ++ (mid ++ [' ']), G) := by
  intro mid
  induction mid with
  | nil =>
    intro acc _
    simp only [List.nil_append, labelTry]
    rw [if_neg (by decide), hT]
  | cons c mid2 ih =>
    intro acc hall
    simp only [List.all_cons, Bool.and_eq_true] at hall
    obtain ⟨hc, hmid⟩ := hall
    have hprops := labelChar_props hc
    simp only [List.cons_append, labelTry]
    rw [if_neg hprops.2.2.2]
    simp only [List.append_eq]
    have hrest : restM (mid2 ++ ' ' :: T) = none := by
      cases mid2 with
      | nil => exact restM_none (by decide) (by decide) (by decide)
      | cons c2 t2 =>
        have hc2 : labelCharB c2 = true := by
          simp only [List.all_cons, Bool.and_eq_true] at hmid
          exact hmid.1
        have h2 := labelChar_props hc2
        exact restM_none h2.1 h2.2.1 h2.2.2.1
    rw [hrest, ih (acc ++ [c]) hmid]
    simp

theorem scoreSearch_eq {L T : List Char} {G : ScoreGroups}
    (hL : L ≠ []) (hall : L.all labelCharB = true)
    (hT : restM T = some G) :
    scoreSearch (L ++ ' ' :: T) = some (L ++ [' '], G) := by
  cases L with
  | nil => exact absurd rfl hL
  | cons a L2 =>
    have hthrough := labelTry_through hT (a :: L2) [] hall
    simp only [List.nil_append] at hthrough
    simp only [List.cons_append, scoreSearch, List.append_eq]
    rw [← List.cons_append, hthrough]
    simp

/-- `digitsOKB` unpacked. -/
theorem digitsOKB_unpack {k : Nat} {d : List Char} (h : digitsOKB k d = true) :
    d ≠ [] ∧ d.all isDigitC = true ∧ d.length ≤ k := by
  simp only [digitsOKB, Bool.and_eq_true, Bool.not_eq_true', List.isEmpty_eq_false,
    decide_eq_true_eq] at h
  exact ⟨by simpa [List.isEmpty_iff] using h.1.1, h.1.2, h.2⟩

theorem alt1M_slash {dN dM : List Char} (h3 : digitsOKB 3 dN = true)
    (h4 : digitsOKB 4 dM = true) :
    alt1M (dN ++ ' ' :: '/' :: ' ' :: dM) = some ⟨some dN, some dM, none, none, none⟩ := by
  obtain ⟨hne, hall, hlen⟩ := digitsOKB_unpack h3
  obtain ⟨hne4, hall4, hlen4⟩ := digitsOKB_unpack h4
  have hld : leadDigits (dN ++ ' ' :: '/' :: ' ' :: dM) = dN.length :=
    leadDigits_append_stop _ hall (by decide)
  have hmin : min 3 (leadDigits (dN ++ ' ' :: '/' :: ' ' :: dM)) = dN.length := by
    rw [hld]; omega
  obtain ⟨kk, hkk⟩ : ∃ kk, dN.length = kk + 1 :=
    ⟨dN.length - 1, by have := List.length_pos_of_ne_nil hne; omega⟩
  have hscr : (((dN ++ ' ' :: '/' :: ' ' :: dM).drop (kk + 1)).dropWhile isSpaceC) =
      '/' :: ' ' :: dM := by
    rw [← hkk, List.drop_left, List.dropWhile_cons, if_pos (by decide),
      List.dropWhile_cons, if_neg (by decide)]
  have hdw2 : (' ' :: dM).dropWhile isSpaceC = dM := by
    cases dM with
    | nil => exact absurd rfl hne4
    | cons e t =>
      have he : isDigitC e = true := by
        simp only [List.all_cons, Bool.and_eq_true] at hall4
        exact hall4.1
      rw [List.dropWhile_cons, if_pos (by decide), List.dropWhile_cons,
        if_neg (by simp [digit_not_space he])]
  have hmin4 : min 4 (leadDigits dM) = dM.length := by rw [leadDigits_all hall4]; omega
  unfold alt1M
  rw [hmin, hkk]
  unfold alt1Try
  split
  · rename_i r2 heq
    rw [hscr] at heq
    injection heq with _ h2
    subst h2
    rw [hdw2, hmin4, if_neg (by have := List.length_pos_of_ne_nil hne4; omega),
      List.take_length, ← hkk, List.take_left]
  · rename_i hnomatch
    exact absurd hscr (hnomatch (' ' :: dM))

theorem altM_slash {dN dM : List Char} (h3 : digitsOKB 3 dN = true)
    (h4 : digitsOKB 4 dM = true) :
    altM (dN ++ ' ' :: '/' :: ' ' :: dM) = some ⟨some dN, some dM, none, none, none⟩ := by
  unfold altM
  rw [alt1M_slash h3 h4]

/-- Failure of alternative 1 when no digit prefix is followed (after optional
spaces) by a slash. -/
theorem alt1Try_none_of {cs : List Char} (k : Nat)
    (h : ∀ j, 1 ≤ j → j ≤ k →
      ∀ r2, ((cs.drop j).dropWhile isSpaceC) ≠ '/' :: r2) :
    alt1Try cs k = none := by
  induction k with
  | zero => rfl
  | succ kk ih =>
    unfold alt1Try
    split
    · rename_i r2 heq
      exact absurd heq (h (kk + 1) (by omega) (le_refl _) r2)
    · exact ih (fun j hj1 hj2 r2 => h j hj1 (by omega) r2)

/-- Failure of alternative 2 when no digit prefix is followed by whitespace. -/
theorem alt2Try_none_of {cs : List Char} (k : Nat)
    (h : ∀ j, 1 ≤ j → j ≤ k → ((cs.drop j).takeWhile isSpaceC).isEmpty = true) :
    alt2Try cs k = none := by
  induction k with
  | zero => rfl
  | succ kk ih =>
    unfold alt2Try
    rw [if_pos (h (kk + 1) (by omega) (le_refl _))]
    exact ih (fun j hj1 hj2 => h j hj1 (by omega))

/-- Inside a digit block, every proper drop still starts with a digit. -/
theorem drop_digits_head {d : List Char} {j : Nat} (hall : d.all isDigitC = true)
    (hj : j < d.length) :
    ∃ e t, d.drop j = e :: t ∧ isDigitC e = true := by
  have hne : d.drop j ≠ [] := by
    intro hnil
    have := List.length_drop j d
    rw [hnil] at this
    simp at this
    omega
  cases hd : d.drop j with
  | nil => exact absurd hd hne
  | cons e t =>
    refine ⟨e, t, rfl, ?_⟩
    have hmem : e ∈ d := by
      have : e ∈ d.drop j := by rw [hd]; exact List.mem_cons_self e t
      exact (List.drop_sublist j d).mem this
    exact List.all_eq_true.mp hall e hmem

theorem altM_of_form {dN dM : List Char} (h3 : digitsOKB 3 dN = true)
    (h4 : digitsOKB 4 dM = true) :
    altM (dN ++ ' ' :: 'o' :: 'f' :: ' ' :: dM) = some ⟨none, none, some dN, some dM, none⟩ := by
  obtain ⟨hne, hall, hlen⟩ := digitsOKB_unpack h3
  obtain ⟨hne4, hall4, hlen4⟩ := digitsOKB_unpack h4
  set cs := dN ++ ' ' :: 'o' :: 'f' :: ' ' :: dM with hcs
  have hld : leadDigits cs = dN.length := leadDigits_append_stop _ hall (by decide)
  have hmin : min 3 (leadDigits cs) = dN.length := by rw [hld]; omega
  have halt1 : alt1M cs = none := by
    unfold alt1M
    rw [hmin]
    refine alt1Try_none_of _ (fun j hj1 hj2 r2 => ?_)
    rw [hcs, List.drop_append_of_le_length (by omega)]
    rcases Nat.lt_or_ge j dN.length with hlt | hge
    · obtain ⟨e, t, hdrop, he⟩ := drop_digits_head hall hlt
      rw [hdrop, List.cons_append, List.dropWhile_cons,
        if_neg (by simp [digit_not_space he])]
      intro hcon
      injection hcon with h1 _
      exact absurd h1 (digit_ne_of_not_digit he (show isDigitC '/' = false by decide))
    · have hj : j = dN.length := by omega
      rw [hj, List.drop_length, List.nil_append, List.dropWhile_cons, if_pos (by decide),
        List.dropWhile_cons, if_neg (by decide)]
      intro hcon
      injection hcon with h1 _
      exact absurd h1 (by decide)
  obtain ⟨kk, hkk⟩ : ∃ kk, dN.length = kk + 1 :=
    ⟨dN.length - 1, by have := List.length_pos_of_ne_nil hne; omega⟩
  have htw : (((cs.drop (kk + 1)).takeWhile isSpaceC).isEmpty) = false := by
    rw [← hkk, hcs, List.drop_left, List.takeWhile_cons, if_pos (by decide)]
    simp
  have hscr : ((cs.drop (kk + 1)).dropWhile isSpaceC) = 'o' :: 'f' :: ' ' :: dM := by
    rw [← hkk, hcs, List.drop_left, List.dropWhile_cons, if_pos (by decide),
      List.dropWhile_cons, if_neg (by decide)]
  have hdw2 : ((' ' :: dM).takeWhile isSpaceC).isEmpty = false := by
    rw [List.takeWhile_cons, if_pos (by decide)]
    simp
  have hdw3 : (' ' :: dM).dropWhile isSpaceC = dM := by
    cases dM with
    | nil => exact absurd rfl hne4
    | cons e t =>
      have he : isDigitC e = true := by
        simp only [List.all_cons, Bool.and_eq_true] at hall4
        exact hall4.1
      rw [List.dropWhile_cons, if_pos (by decide), List.dropWhile_cons,
        if_neg (by simp [digit_not_space he])]
  have hmin4 : min 4 (leadDigits dM) = dM.length := by rw [leadDigits_all hall4]; omega
  have halt2v : alt2Try cs dN.length = some ⟨none, none, some dN, some dM, none⟩ := by
    rw [hkk]
    unfold alt2Try
    rw [if_neg (by simp [htw])]
    split
    · rename_i o f r2 heq
      rw [hscr] at heq
      injection heq with ho heq2
      injection heq2 with hf hr2
      subst ho
      subst hf
      subst hr2
      rw [if_pos (by constructor <;> decide), if_neg (by simp [hdw2]), hdw3, hmin4,
        if_neg (by have := List.length_pos_of_ne_nil hne4; omega),
        List.take_length, ← hkk, hcs, List.take_left]
    · rename_i hnomatch
      exact absurd hscr (hnomatch 'o' 'f' (' ' :: dM))
  have halt2 : alt2M cs = some ⟨none, none, some dN, some dM, none⟩ := by
    unfold alt2M
    rw [hmin, halt2v]
  simp only [altM, halt1, halt2]

theorem altM_single {dN : List Char} (h3 : digitsOKB 3 dN = true) :
    altM dN = some ⟨none, none, none, none, some dN⟩ := by
  obtain ⟨hne, hall, hlen⟩ := digitsOKB_unpack h3
  have hld : leadDigits dN = dN.length := leadDigits_all hall
  have hmin3 : min 3 (leadDigits dN) = dN.length := by rw [hld]; omega
  have hdropfacts : ∀ j, 1 ≤ j → j ≤ dN.length →
      (dN.drop j).dropWhile isSpaceC = dN.drop j ∧
      ((dN.drop j).takeWhile isSpaceC).isEmpty = true := by
    intro j hj1 hj2
    rcases Nat.lt_or_ge j dN.length with hlt | hge
    · obtain ⟨e, t, hdrop, he⟩ := drop_digits_head hall hlt
      rw [hdrop]
      constructor
      · rw [List.dropWhile_cons, if_neg (by simp [digit_not_space he])]
      · rw [List.takeWhile_cons, if_neg (by simp [digit_not_space he])]
        rfl
    · have : j = dN.length := by omega
      rw [this, List.drop_length]
      exact ⟨rfl, rfl⟩
  have halt1 : alt1M dN = none := by
    unfold alt1M
    rw [hmin3]
    refine alt1Try_none_of _ (fun j hj1 hj2 r2 => ?_)
    rw [(hdropfacts j hj1 hj2).1]
    intro hcon
    rcases Nat.lt_or_ge j dN.length with hlt | hge
    · obtain ⟨e, t, hdrop, he⟩ := drop_digits_head hall hlt
      rw [hdrop] at hcon
      injection hcon with h1 _
      exact absurd h1 (digit_ne_of_not_digit he (show isDigitC '/' = false by decide))
    · have hj : j = dN.length := by omega
      rw [hj, List.drop_length] at hcon
      exact absurd hcon (by simp)
  have halt2 : alt2M dN = none := by
    unfold alt2M
    rw [hmin3]
    exact alt2Try_none_of _ (fun j hj1 hj2 => (hdropfacts j hj1 hj2).2)
  simp only [altM, halt1, halt2, alt3M]
  rw [hmin3, if_neg (by have := List.length_pos_of_ne_nil hne; omega), List.take_length]

/-! ## Label cleanup lemmas -/

theorem labelOKB_unpack {L : List Char} (h : labelOKB L = true) :
    L ≠ [] ∧ L.all labelCharB = true ∧
      (∃ a t, L = a :: t ∧ isAlphaC a = true) ∧
      (∃ M z, L = M ++ [z] ∧ isAlphaC z = true) := by
  simp only [labelOKB, Bool.and_eq_true, Bool.not_eq_true', List.isEmpty_eq_false] at h
  obtain ⟨⟨⟨h1, h2⟩, h3⟩, h4⟩ := h
  have hne : L ≠ [] := by simpa [List.isEmpty_iff] using h1
  refine ⟨hne, h2, ?_, ?_⟩
  · cases L with
    | nil => exact absurd rfl hne
    | cons a t => exact ⟨a, t, rfl, h3⟩
  · rcases List.eq_nil_or_concat L with rfl | ⟨M, z, hMz⟩
    · exact absurd rfl hne
    · rw [List.concat_eq_append] at hMz
      refine ⟨M, z, hMz, ?_⟩
      rw [hMz, List.getLast?_concat] at h4
      exact h4

theorem stripC_self {L : List Char}
    (hh : ∃ a t, L = a :: t ∧ isAlphaC a = true)
    (hl : ∃ M z, L = M ++ [z] ∧ isAlphaC z = true) :
    stripC L = L := by
  obtain ⟨a, t, rfl, ha⟩ := hh
  obtain ⟨M, z, hMz, hz⟩ := hl
  unfold stripC
  rw [List.dropWhile_cons, if_neg (by simp [alpha_not_space ha])]
  rw [hMz, List.reverse_append]
  simp only [List.reverse_cons, List.reverse_nil, List.nil_append, List.cons_append,
    List.singleton_append]
  rw [List.dropWhile_cons, if_neg (by simp [alpha_not_space hz])]
  simp [← hMz]

theorem stripC_append_space {L : List Char}
    (hh : ∃ a t, L = a :: t ∧ isAlphaC a = true)
    (hl : ∃ M z, L = M ++ [z] ∧ isAlphaC z = true) :
    stripC (L ++ [' ']) = L := by
  obtain ⟨a, t, rfl, ha⟩ := hh
  obtain ⟨M, z, hMz, hz⟩ := hl
  unfold stripC
  rw [List.cons_append, List.dropWhile_cons, if_neg (by simp [alpha_not_space ha])]
  rw [← List.cons_append, hMz, List.reverse_append, List.reverse_append]
  simp only [List.reverse_cons, List.reverse_nil, List.nil_append, List.cons_append,
    List.singleton_append]
  rw [List.dropWhile_cons, if_pos (by decide), List.dropWhile_cons,
    if_neg (by simp [alpha_not_space hz])]
  simp [← hMz]

theorem labelCleanup_eq {L : List Char} (h : labelOKB L = true)
    (hstrip : stripScoreSuffixC L = L) :
    labelCleanup (L ++ [' ']) = some ⟨L⟩ := by
  obtain ⟨hne, _, hh, hl⟩ := labelOKB_unpack h
  unfold labelCleanup
  rw [stripC_append_space hh hl, hstrip, stripC_self hh hl,
    if_neg (by simpa [List.isEmpty_iff] using hne)]

theorem scoreWordRest_drop {cs rest : List Char} (h : scoreWordRest cs = some rest) :
    rest = cs.drop 5 ∨ rest = cs.drop 6 := by
  unfold scoreWordRest at h
  split_ifs at h
  · exact Or.inl (by injection h with hh; exact hh.symm)
  · exact Or.inl (by injection h with hh; exact hh.symm)
  · exact Or.inr (by injection h with hh; exact hh.symm)

/-- Deleting the trailing token " score" from a label: the `re.sub` matches
exactly at the final word, because every earlier candidate position leaves the
final letter 'e' in the `[:\s\-]*$` tail. -/
theorem stripGo_score_word (mid : List Char) :
    ∀ prev, stripScoreSuffixGo prev (mid ++ ' ' :: ['s', 'c', 'o', 'r', 'e']) =
      mid ++ [' '] := by
  induction mid with
  | nil =>
    intro prev
    show stripScoreSuffixGo prev (' ' :: ['s', 'c', 'o', 'r', 'e']) = [' ']
    unfold stripScoreSuffixGo
    have hfirst : scoreSuffixHere prev (' ' :: ['s', 'c', 'o', 'r', 'e']) = false := by
      unfold scoreSuffixHere
      rw [show scoreWordRest (' ' :: ['s', 'c', 'o', 'r', 'e']) = none from rfl]
      simp
    rw [if_neg (by simp [hfirst])]
    rfl
  | cons c mid2 ih =>
    intro prev
    show stripScoreSuffixGo prev (c :: (mid2 ++ ' ' :: ['s', 'c', 'o', 'r', 'e'])) =
      c :: (mid2 ++ [' '])
    have hfalse : scoreSuffixHere prev (c :: (mid2 ++ ' ' :: ['s', 'c', 'o', 'r', 'e'])) =
        false := by
      unfold scoreSuffixHere
      cases hw : scoreWordRest (c :: (mid2 ++ ' ' :: ['s', 'c', 'o', 'r', 'e'])) with
      | none => simp
      | some rest =>
        have hd := scoreWordRest_drop hw
        have hre : c :: (mid2 ++ ' ' :: ['s', 'c', 'o', 'r', 'e']) =
            (c :: mid2 ++ [' ', 's', 'c', 'o', 'r']) ++ ['e'] := by simp
        have he : 'e' ∈ rest := by
          rcases hd with hd | hd <;>
            rw [hd, hre, List.drop_append_of_le_length (by simp)] <;> simp
        have hallfalse : rest.all suffixClassB = false := by
          cases hall2 : rest.all suffixClassB with
          | true =>
            exfalso
            have := List.all_eq_true.mp hall2 'e' he
            exact absurd this (by decide)
          | false => rfl
        simp [hallfalse]
    unfold stripScoreSuffixGo
    rw [if_neg (by simp [hfalse]), ih (some c)]

theorem stripScoreSuffixC_score_word (L : List Char) :
    stripScoreSuffixC (L ++ ' ' :: ['s', 'c', 'o', 'r', 'e']) = L ++ [' '] :=
  stripGo_score_word L none

/-- `restM` on a digit-headed tail agrees with the alternation. -/
theorem restM_of_altM {dN rest : List Char} {G : ScoreGroups}
    (h3 : digitsOKB 3 dN = true) (hAlt : altM (dN ++ rest) = some G) :
    restM (dN ++ rest) = some G := by
  obtain ⟨hne, hall, _⟩ := digitsOKB_unpack h3
  cases dN with
  | nil => exact absurd rfl hne
  | cons e t =>
    have he : isDigitC e = true := by
      simp only [List.all_cons, Bool.and_eq_true] at hall
      exact hall.1
    rw [List.cons_append, restM_digit_head he, ← List.cons_append]
    exact hAlt

/-- Shared spine of the three C2 format conjuncts: search plus group
assembly, with the raw label capture `L ++ [' ']`. -/
theorem extractScore_spine {L T : List Char} {G : ScoreGroups}
    (hLne : L ≠ []) (hLall : L.all labelCharB = true) (hT : restM T = some G) :
    extractScoreFromText ⟨L ++ ' ' :: T⟩ =
      some { label := labelCleanup (L ++ [' ']),
             score := (if G.score.isSome then (G.score, G.maxg)
                       else if G.score2.isSome then (G.score2, G.max2)
                       else if G.score3.isSome then (G.score3, none)
                       else (none, none) :
                 Option (List Char) × Option (List Char)).1.map (⟨·⟩),
             maximum := (if G.score.isSome then (G.score, G.maxg)
                         else if G.score2.isSome then (G.score2, G.max2)
                         else if G.score3.isSome then (G.score3, none)
                         else (none, none) :
                 Option (List Char) × Option (List Char)).2.map (⟨·⟩) } := by
  have hs := scoreSearch_eq hLne hLall hT
  unfold extractScoreFromText
  have hdata : (⟨L ++ ' ' :: T⟩ : String).data = L ++ ' ' :: T := rfl
  rw [hdata, hs]

/-- Claim C2: for every line "label N / M" the score-line parser returns
(label, score=N, maximum=M); for "label N of M" it returns (label, N, M); for
"label N" alone it returns (label, N, null); the three alternatives are tried
in pattern order, and a trailing token "score" (likewise "marks"/"result") is
stripped from the recovered label.  Labels here are nonempty words of letters
and spaces not themselves ending in a strippable token; N has at most three
digits and M at most four, as in the pattern. -/
theorem claim_C2_score_line_formats :
    (∀ L dN dM : List Char, labelOKB L = true → digitsOKB 3 dN = true →
      digitsOKB 4 dM = true → stripScoreSuffixC L = L →
      extractScoreFromText ⟨L ++ ' ' :: (dN ++ ' ' :: '/' :: ' ' :: dM)⟩ =
        some ⟨some ⟨L⟩, some ⟨dN⟩, some ⟨dM⟩⟩) ∧
    (∀ L dN dM : List Char, labelOKB L = true → digitsOKB 3 dN = true →
      digitsOKB 4 dM = true → stripScoreSuffixC L = L →
      extractScoreFromText ⟨L ++ ' ' :: (dN ++ ' ' :: 'o' :: 'f' :: ' ' :: dM)⟩ =
        some ⟨some ⟨L⟩, some ⟨dN⟩, some ⟨dM⟩⟩) ∧
    (∀ L dN : List Char, labelOKB L = true → digitsOKB 3 dN = true →
      stripScoreSuffixC L = L →
      extractScoreFromText ⟨L ++ ' ' :: dN⟩ =
        some ⟨some ⟨L⟩, some ⟨dN⟩, none⟩) ∧
    (∀ L dN dM : List Char, labelOKB L = true → digitsOKB 3 dN = true →
      digitsOKB 4 dM = true →
      extractScoreFromText
          ⟨(L ++ ' ' :: ['s', 'c', 'o', 'r', 'e']) ++
            ' ' :: (dN ++ ' ' :: '/' :: ' ' :: dM)⟩ =
        some ⟨some ⟨L⟩, some ⟨dN⟩, some ⟨dM⟩⟩) := by
  refine ⟨?_, ?_, ?_, ?_⟩
  · intro L dN dM hL h3 h4 hstrip
    obtain ⟨hLne, hLall, _, _⟩ := labelOKB_unpack hL
    have hT := restM_of_altM h3 (altM_slash h3 h4)
    rw [extractScore_spine hLne hLall hT, labelCleanup_eq hL hstrip]
    simp
  · intro L dN dM hL h3 h4 hstrip
    obtain ⟨hLne, hLall, _, _⟩ := labelOKB_unpack hL
    have hT := restM_of_altM h3 (altM_of_form h3 h4)
    rw [extractScore_spine hLne hLall hT, labelCleanup_eq hL hstrip]
    simp
  · intro L dN hL h3 hstrip
    obtain ⟨hLne, hLall, _, _⟩ := labelOKB_unpack hL
    have hAlt := altM_single h3
    rw [show dN = dN ++ ([] : List Char) from (List.append_nil dN).symm] at hAlt
    have hT := restM_of_altM h3 hAlt
    rw [List.append_nil] at hT
    rw [extractScore_spine hLne hLall hT, labelCleanup_eq hL hstrip]
    simp
  · intro L dN dM hL h3 h4
    obtain ⟨hLne, hLall, hh, _⟩ := labelOKB_unpack hL
    have hL2ne : (L ++ ' ' :: ['s', 'c', 'o', 'r', 'e'] : List Char) ≠ [] := by
      simp
    have hL2all : (L ++ ' ' :: ['s', 'c', 'o', 'r', 'e']).all labelCharB = true := by
      rw [List.all_append, hLall]
      decide
    have hT := restM_of_altM h3 (altM_slash h3 h4)
    rw [extractScore_spine hL2ne hL2all hT]
    have hclean : labelCleanup ((L ++ ' ' :: ['s', 'c', 'o', 'r', 'e']) ++ [' ']) =
        some ⟨L⟩ := by
      obtain ⟨a, t, hat, ha⟩ := hh
      obtain ⟨M, z, hMz, hz⟩ := labelOKB_unpack hL |>.2.2.2
      have hh2 : ∃ a2 t2, (L ++ ' ' :: ['s', 'c', 'o', 'r', 'e'] : List Char) = a2 :: t2 ∧
          isAlphaC a2 = true :=
        ⟨a, t ++ ' ' :: ['s', 'c', 'o', 'r', 'e'], by rw [hat, List.cons_append], ha⟩
      have hl2 : ∃ M2 z2, (L ++ ' ' :: ['s', 'c', 'o', 'r', 'e'] : List Char) =
          M2 ++ [z2] ∧ isAlphaC z2 = true :=
        ⟨L ++ [' ', 's', 'c', 'o', 'r'], 'e', by simp, by decide⟩
      unfold labelCleanup
      rw [stripC_append_space hh2 hl2, stripScoreSuffixC_score_word,
        stripC_append_space ⟨a, t, hat, ha⟩ ⟨M, z, hMz, hz⟩,
        if_neg (by simpa [List.isEmpty_iff] using hLne)]
    rw [hclean]
    simp

/-- Witness for claim C2 at concrete inputs, exercising all four conjuncts
(slash form, "of" form, bare-score form, and trailing-"score" stripping). -/
theorem claim_C2_score_line_formats_witness :
    extractScoreFromText "Math 74 / 100" = some ⟨some "Math", some "74", some "100"⟩ ∧
    extractScoreFromText "Math 74 of 100" = some ⟨some "Math", some "74", some "100"⟩ ∧
    extractScoreFromText "Math 74" = some ⟨some "Math", some "74", none⟩ ∧
    extractScoreFromText "Math score 74 / 100" = some ⟨some "Math", some "74", some "100"⟩ := by
  have h := claim_C2_score_line_formats
  refine ⟨?_, ?_, ?_, ?_⟩
  · exact (congrArg extractScoreFromText
      (by decide :
        ("Math 74 / 100" : String) =
          ⟨"Math".data ++ ' ' :: ("74".data ++ ' ' :: '/' :: ' ' :: "100".data)⟩)).trans
      (h.1 "Math".data "74".data "100".data (by decide) (by decide) (by decide) (by decide))
  · exact (congrArg extractScoreFromText
      (by decide :
        ("Math 74 of 100" : String) =
          ⟨"Math".data ++ ' ' :: ("74".data ++ ' ' :: 'o' :: 'f' :: ' ' :: "100".data)⟩)).trans
      (h.2.1 "Math".data "74".data "100".data (by decide) (by decide) (by decide) (by decide))
  · exact (congrArg extractScoreFromText
      (by decide :
        ("Math 74" : String) = ⟨"Math".data ++ ' ' :: "74".data⟩)).trans
      (h.2.2.1 "Math".data "74".data (by decide) (by decide) (by decide))
  · exact (congrArg extractScoreFromText
      (by decide :
        ("Math score 74 / 100" : String) =
          ⟨("Math".data ++ ' ' :: ['s', 'c', 'o', 'r', 'e']) ++
            ' ' :: ("74".data ++ ' ' :: '/' :: ' ' :: "100".data)⟩)).trans
      (h.2.2.2 "Math".data "74".data "100".data (by decide) (by decide) (by decide))

/-! ## Claim C6: name extraction -/

/-- Claim C6: name extraction returns the run of capitalized tokens after a
"Name" cue, truncated at the first stop-word-union token; the structured path
(`extract_full_name`) requires at least two retained tokens (else null) and
the OCR path at least one; on "Name: Ahmad Daniel Languages 74/100" both
return "Ahmad Daniel", stopping at the known-subject token "Languages". -/
theorem claim_C6_name_extraction :
    extractFullName "Name: Ahmad Daniel Languages 74/100" = some "Ahmad Daniel" ∧
    extractStudentNameFromOcr "Name: Ahmad Daniel Languages 74/100" = some "Ahmad Daniel" ∧
    (∀ text n, extractFullName text = some n →
      ∃ parts, n = String.intercalate " " parts ∧ 2 ≤ parts.length ∧
        ∀ w ∈ parts, nameStopB w = false) ∧
    (∀ text n, extractStudentNameFromOcr text = some n →
      ∃ ws, n = String.intercalate " " ws ∧ 1 ≤ ws.length ∧
        ∀ w ∈ ws, ocrWordStop w = false) := by
  refine ⟨by decide, by decide, ?_, ?_⟩
  · intro text n h
    unfold extractFullName at h
    by_cases h1 : text = ""
    · rw [if_pos h1] at h
      exact absurd h (by simp)
    rw [if_neg h1] at h
    by_cases h2 : (capTokens (nameRemainder text)).length < 2
    · rw [if_pos h2] at h
      exact absurd h (by simp)
    rw [if_neg h2] at h
    by_cases h3 :
        2 ≤ ((capTokens (nameRemainder text)).takeWhile (fun w => !nameStopB w)).length
    · rw [if_pos h3] at h
      injection h with hn
      refine ⟨(capTokens (nameRemainder text)).takeWhile (fun w => !nameStopB w),
        hn.symm, h3, ?_⟩
      intro w hw
      simpa using List.mem_takeWhile_imp hw
    · rw [if_neg h3] at h
      exact absurd h (by simp)
  · intro text n h
    unfold extractStudentNameFromOcr at h
    generalize hls : splitOnNl text = ls at h
    clear hls
    induction ls with
    | nil => exact absurd h (by simp [extractStudentNameFromOcrGo])
    | cons l rest ih =>
      unfold extractStudentNameFromOcrGo at h
      by_cases h1 : containsS (pyStrip l) "Name" = true
      · rw [if_pos h1] at h
        split at h
        · rename_i cand heq
          by_cases h2 : 1 ≤
              ((pySplitWs (pyStrip ⟨cand⟩)).takeWhile (fun w => !ocrWordStop w)).length
          · rw [if_pos h2] at h
            injection h with hn
            refine ⟨(pySplitWs (pyStrip ⟨cand⟩)).takeWhile (fun w => !ocrWordStop w),
              hn.symm, h2, ?_⟩
            intro w hw
            simpa using List.mem_takeWhile_imp hw
          · rw [if_neg h2] at h
            exact ih h
        · exact ih h
      · rw [if_neg h1] at h
        exact ih h

/-- Witness for claim C6: the two universal conjuncts instantiated at the
concrete example, discharged by the theorem's own concrete conjuncts. -/
theorem claim_C6_name_extraction_witness :
    (∃ parts, ("Ahmad Daniel" : String) = String.intercalate " " parts ∧
      2 ≤ parts.length ∧ ∀ w ∈ parts, nameStopB w = false) ∧
    (∃ ws, ("Ahmad Daniel" : String) = String.intercalate " " ws ∧
      1 ≤ ws.length ∧ ∀ w ∈ ws, ocrWordStop w = false) :=
  ⟨claim_C6_name_extraction.2.2.1 _ _ claim_C6_name_extraction.1,
   claim_C6_name_extraction.2.2.2 _ _ claim_C6_name_extraction.2.1⟩

/-! ## Claim C7: state extraction -/

/-- Counterexample to claim C7 as stated: on the text "State Negeri" the
metadata state extractor `extract_state` returns "Negeri", not
"Negeri Sembilan" — its "negeri" special case compares the capitalized
capture against a lowercase literal and cannot fire here. -/
theorem claim_C7_counterexample :
    extractState "State Negeri" = some "Negeri" ∧
    extractState "State Negeri" ≠ some "Negeri Sembilan" := by
  constructor
  · decide
  · decide

/-- Claim C7 amended: the OCR line parser maps "State Negeri" to
"Negeri Sembilan" and "State Selangor" to "Selangor"; `extract_state` returns
"Negeri" for "State Negeri" (its special case fires only on the lowercase
token, e.g. "State negeri") and "Selangor" for "State Selangor". -/
theorem claim_C7_state_extraction :
    dictGet (parseLineWithMetadataAndScore "State Negeri").metadata "State" =
      some "Negeri Sembilan" ∧
    dictGet (parseLineWithMetadataAndScore "State Selangor").metadata "State" =
      some "Selangor" ∧
    extractState "State Negeri" = some "Negeri" ∧
    extractState "State negeri" = some "Negeri Sembilan" ∧
    extractState "State Selangor" = some "Selangor" := by
  refine ⟨by decide, by decide, by decide, by decide, by decide⟩

/-! ## Shared dictionary and fold lemmas -/

lemma mem_dictSet {α : Type} {d : List (String × α)} {k : String} {v : α}
    {p : String × α} (hp : p ∈ dictSet d k v) : p ∈ d ∨ p = (k, v) := by
  induction d with
  | nil =>
    simp only [dictSet, List.mem_singleton] at hp
    exact Or.inr hp
  | cons hd t ih =>
    simp only [dictSet] at hp
    by_cases hk : hd.1 = k
    · rw [if_pos hk] at hp
      rcases List.mem_cons.mp hp with h | h
      · exact Or.inr (by rw [h, hk])
      · exact Or.inl (List.mem_cons_of_mem _ h)
    · rw [if_neg hk] at hp
      rcases List.mem_cons.mp hp with h | h
      · exact Or.inl (h ▸ List.mem_cons_self _ _)
      · rcases ih h with h2 | h2
        · exact Or.inl (List.mem_cons_of_mem _ h2)
        · exact Or.inr h2

lemma dictGet_mem_values {α : Type} {d : List (String × α)} {k : String}
    {v : α} (h : dictGet d k = some v) : v ∈ d.map Prod.snd := by
  induction d with
  | nil => simp [dictGet] at h
  | cons hd t ih =>
    simp only [dictGet] at h
    by_cases hk : hd.1 = k
    · rw [if_pos hk] at h
      simp only [List.map_cons, List.mem_cons]
      exact Or.inl (Option.some.inj h).symm
    · rw [if_neg hk] at h
      simp only [List.map_cons, List.mem_cons]
      exact Or.inr (ih h)

lemma foldlPreserveMem {α β : Type} (P : List α → Prop)
    (step : List α → β → List α) :
    ∀ (l : List β), (∀ res b, b ∈ l → P res → P (step res b)) →
      ∀ init, P init → P (l.foldl step init) := by
  intro l
  induction l with
  | nil => intro _ init h; exact h
  | cons b t ih =>
    intro hstep init hinit
    exact ih (fun res b2 hb2 => hstep res b2 (List.mem_cons_of_mem _ hb2)) _
      (hstep init b (List.mem_cons_self _ _) hinit)

/-! ## Rating-normalization lemmas (claims C4, C5) -/

lemma normalizeRatingToken_mem {t r : String}
    (h : normalizeRatingToken t = some r) : r ∈ CANONICAL_RATINGS := by
  have hsub : ∀ v ∈ RATING_NORMALIZATION.map Prod.snd, v ∈ CANONICAL_RATINGS := by
    decide
  unfold normalizeRatingToken at h
  by_cases h0 : t = ""
  · rw [if_pos h0] at h; cases h
  · rw [if_neg h0] at h
    split at h
    · exact (Option.some.inj h) ▸ List.mem_of_find?_eq_some (by assumption)
    · split at h
      · exact (Option.some.inj h) ▸ hsub _ (dictGet_mem_values (by assumption))
      · split at h
        · exact (Option.some.inj h) ▸ hsub _ (dictGet_mem_values (by assumption))
        · split at h
          · exact (Option.some.inj h) ▸ List.mem_of_find?_eq_some (by assumption)
          · exact List.mem_of_find?_eq_some h

lemma strictStep_values {res : List (String × String)} {m : ReMatch}
    (hres : ∀ p ∈ res, p.2 ∈ CANONICAL_RATINGS) :
    ∀ p ∈ strictStep res m, p.2 ∈ CANONICAL_RATINGS := by
  intro p hp
  unfold strictStep at hp
  split at hp
  · exact hres p hp
  · rename_i rating hrat
    split at hp
    · exact hres p hp
    · rcases mem_dictSet hp with h | h
      · exact hres p h
      · rw [h]; exact normalizeRatingToken_mem hrat

lemma fbStep_values {words : List (String × Nat × Nat)}
    {res : List (String × String)} {m : ReMatch}
    (hres : ∀ p ∈ res, p.2 ∈ CANONICAL_RATINGS) :
    ∀ p ∈ fbStep words res m, p.2 ∈ CANONICAL_RATINGS := by
  intro p hp
  unfold fbStep at hp
  split at hp
  · exact hres p hp
  · rename_i rating hrat
    split at hp
    · exact hres p hp
    · split at hp
      · exact hres p hp
      · split at hp
        · exact hres p hp
        · rcases mem_dictSet hp with h | h
          · exact hres p h
          · rw [h]; exact normalizeRatingToken_mem hrat

lemma dfStep_values {li vi : Option Nat} {res : List (String × String)}
    {r : List Cell} (hres : ∀ p ∈ res, p.2 ∈ CANONICAL_RATINGS) :
    ∀ p ∈ dfStep li vi res r, p.2 ∈ CANONICAL_RATINGS := by
  intro p hp
  unfold dfStep at hp
  split at hp
  · split at hp
    · rename_i rating hrat
      split at hp
      · exact hres p hp
      · rcases mem_dictSet hp with h | h
        · exact hres p h
        · rw [h]; exact normalizeRatingToken_mem hrat
    · exact hres p hp
  · exact hres p hp

lemma extractBehaviourFromDataframe_values (df : Frame) :
    ∀ p ∈ extractBehaviourFromDataframe df, p.2 ∈ CANONICAL_RATINGS := by
  intro p hp
  unfold extractBehaviourFromDataframe at hp
  split at hp
  · cases hp
  · split at hp
    · cases hp
    · exact foldlPreserveMem (fun l => ∀ p ∈ l, p.2 ∈ CANONICAL_RATINGS) _ _
        (fun res r _ hres => dfStep_values hres) [] (by intro q hq; cases hq) p hp

lemma behaviourRawResults_values (t : String) :
    ∀ p ∈ behaviourRawResults t, p.2 ∈ CANONICAL_RATINGS := by
  intro p hp
  unfold behaviourRawResults at hp
  split at hp
  · exact foldlPreserveMem (fun l => ∀ p ∈ l, p.2 ∈ CANONICAL_RATINGS) _ _
      (fun res m _ hres => fbStep_values hres) [] (by intro q hq; cases hq) p
      (by exact hp)
  · exact foldlPreserveMem (fun l => ∀ p ∈ l, p.2 ∈ CANONICAL_RATINGS) _ _
      (fun res m _ hres => strictStep_values hres) [] (by intro q hq; cases hq) p
      (by exact hp)

lemma extractBehaviourFromText_values (t : String) :
    ∀ p ∈ extractBehaviourFromText t, p.2 ∈ CANONICAL_RATINGS := by
  intro p hp
  unfold extractBehaviourFromText at hp
  split at hp
  · cases hp
  · refine foldlPreserveMem (fun l => ∀ p ∈ l, p.2 ∈ CANONICAL_RATINGS)
      behaviourFinalStep _ ?_ [] (by intro q hq; cases hq) p hp
    intro res kv hkv hres q hq
    unfold behaviourFinalStep at hq
    split at hq
    · exact hres q hq
    · split at hq
      · exact hres q hq
      · rcases mem_dictSet hq with h | h
        · exact hres q h
        · rw [h]
          exact behaviourRawResults_values _ kv hkv

lemma extractBehaviourFromText_keys (t : String) :
    ∀ p ∈ extractBehaviourFromText t,
      p.1.data.any isDigitC = false ∧ p.1.length ≤ 60 := by
  intro p hp
  unfold extractBehaviourFromText at hp
  split at hp
  · cases hp
  · refine foldlPreserveMem
      (fun l => ∀ p ∈ l, p.1.data.any isDigitC = false ∧ p.1.length ≤ 60)
      behaviourFinalStep _ ?_ [] (by intro q hq; cases hq) p hp
    intro res kv _ hres q hq
    unfold behaviourFinalStep at hq
    split at hq
    · exact hres q hq
    · rename_i hdig
      split at hq
      · exact hres q hq
      · rename_i hlen
        rcases mem_dictSet hq with h | h
        · exact hres q h
        · rw [h]
          exact ⟨Bool.not_eq_true _ ▸ Bool.of_not_eq_true hdig,
            Nat.le_of_not_lt hlen⟩

/-! ## Claim C3: canonical columns of the two normalization paths -/

lemma ocrFinalCols_subset (rows : List (List (String × Cell))) :
    ocrFinalCols rows ⊆ ocrCanonicalOrder := by
  unfold ocrFinalCols
  split
  · exact fun a ha => ha
  · exact fun a ha => (List.mem_filter.mp ha).1

/-- Counterexample to claim C3 as stated: the canonical table produced by
`normalize_uploaded_dataframe` has columns Section, Label, Score, Maximum,
Notes only — a "Value" field is never part of its records. -/
theorem claim_C3_counterexample :
    "Value" ∉ (normalizeUploadedDataframe
      ⟨["Section", "Label"], [[Cell.str "Subjects", Cell.str "Math"]]⟩).cols := by
  decide

/-- Claim C3 amended: `normalize_uploaded_dataframe` always emits exactly the
columns Section, Label, Score, Maximum, Notes (no "Value" field), while
`parse_ocr_text_to_dataframe` emits a subset of Section, Label, Value, Score,
Maximum (never a "Notes" field); no single fixed six-field record shape covers
both paths. -/
theorem claim_C3_canonical_fields :
    (∀ df : Frame, (normalizeUploadedDataframe df).cols =
      ["Section", "Label", "Score", "Maximum", "Notes"]) ∧
    (∀ text : String,
      (parseOcrTextToDataframe text).cols ⊆
        ["Section", "Label", "Value", "Score", "Maximum"] ∧
      "Notes" ∉ (parseOcrTextToDataframe text).cols) := by
  refine ⟨fun df => ?_, fun text => ⟨fun a ha => ocrFinalCols_subset _ ha, fun ha => ?_⟩⟩
  · unfold normalizeUploadedDataframe
    split <;> rfl
  · exact absurd (ocrFinalCols_subset _ ha) (by decide)

/-! ## Claims C4 and C5: behaviour extraction -/

lemma normalizeRatingToken_eq_cascade (t : String) :
    normalizeRatingToken t = ratingCascadeSpec t := by
  simp only [normalizeRatingToken, ratingCascadeSpec, ratingTierExact,
    ratingTierTable, ratingTierRepaired, ratingTierSubstring]
  by_cases h0 : t = ""
  · rw [if_pos h0, if_pos h0]
  · rw [if_neg h0, if_neg h0]
    cases hE : CANONICAL_RATINGS.find? (fun r => pyLower (pyStrip t) = pyLower r) with
    | some r => rfl
    | none =>
      cases hT : dictGet RATING_NORMALIZATION (pyLower (pyStrip t)) with
      | some v => rfl
      | none =>
        cases hR : dictGet RATING_NORMALIZATION (ratingFix (pyLower (pyStrip t))) with
        | some v => rfl
        | none =>
          cases hF : CANONICAL_RATINGS.find?
              (fun r => ratingFix (pyLower (pyStrip t)) = pyLower r) with
          | some r => rfl
          | none => rfl

/-- **C4**: every value stored by behaviour extraction (DataFrame path, text
path, and the public entry point) lies in the canonical rating set
{Excellent, Good, Fair, Poor, Bad, Very Good}; the token normalizer equals
the four-tier cascade of the spec (exact canonical match, variant table,
character-substitution repair re-checked, substring containment); and the
concrete OCR variant "G00d" is canonicalized to "Good" before storage. -/
theorem claim_C4_rating_canonicalization :
    (∀ df : Frame, ∀ p ∈ extractBehaviourFromDataframe df, p.2 ∈ CANONICAL_RATINGS) ∧
    (∀ text : String, ∀ p ∈ extractBehaviourFromText text, p.2 ∈ CANONICAL_RATINGS) ∧
    (∀ df : Option Frame, ∀ text : Option String,
      ∀ p ∈ extractBehaviourPairs df text, p.2 ∈ CANONICAL_RATINGS) ∧
    (∀ token : String, normalizeRatingToken token = ratingCascadeSpec token) ∧
    extractBehaviourFromDataframe
      ⟨["Section", "Label", "Value"],
       [[Cell.str "Behaviour", Cell.str "Focus", Cell.str "G00d"]]⟩ =
      [("Focus", "Good")] := by
  refine ⟨extractBehaviourFromDataframe_values, extractBehaviourFromText_values,
    ?_, normalizeRatingToken_eq_cascade, by decide⟩
  intro df text p hp
  unfold extractBehaviourPairs at hp
  split at hp
  · split at hp
    · split at hp
      · cases hp
      · exact extractBehaviourFromText_values _ p hp
    · cases hp
  · split at hp
    · exact extractBehaviourFromDataframe_values _ p hp
    · cases hp

/-- Counterexample to claim C5 as stated: the DataFrame path of the
behaviour extractor applies no digit/length filter, so a Label cell
containing digits becomes a key of the returned mapping. -/
theorem claim_C5_counterexample :
    extractBehaviourFromDataframe
      ⟨["Section", "Label", "Value"],
       [[Cell.str "Behaviour", Cell.str "Attitude 123", Cell.str "Good"]]⟩ =
      [("Attitude 123", "Good")] ∧
    ("Attitude 123" : String).data.any isDigitC = true := by
  refine ⟨by decide, by decide⟩

/-- Claim C5 amended: on the text path the final cleanup guarantees that no
returned key contains a digit and no key exceeds 60 characters (concretely,
"Focus: G00d" yields the key "Focus"); the DataFrame path applies no such
filter, see the counterexample. -/
theorem claim_C5_attribute_filter :
    (∀ text : String, ∀ p ∈ extractBehaviourFromText text,
      p.1.data.any isDigitC = false ∧ p.1.length ≤ 60) ∧
    extractBehaviourFromText "Focus: G00d" = [("Focus", "Good")] := by
  exact ⟨extractBehaviourFromText_keys, by decide⟩

/-! ## Claims C8 and C10: top-5 ranking -/

lemma mem_insertDesc {p q : String × Rat} {l : List (String × Rat)} :
    p ∈ insertDesc q l ↔ p = q ∨ p ∈ l := by
  induction l with
  | nil => simp [insertDesc]
  | cons a t ih =>
    unfold insertDesc
    by_cases h : a.2 ≤ q.2
    · rw [if_pos h]
      simp [List.mem_cons]
    · rw [if_neg h]
      simp only [List.mem_cons, ih]
      tauto

lemma pairwise_insertDesc {q : String × Rat} {l : List (String × Rat)}
    (h : l.Pairwise (fun a b => b.2 ≤ a.2)) :
    (insertDesc q l).Pairwise (fun a b => b.2 ≤ a.2) := by
  induction l with
  | nil => simp [insertDesc]
  | cons a t ih =>
    rw [List.pairwise_cons] at h
    unfold insertDesc
    by_cases hle : a.2 ≤ q.2
    · rw [if_pos hle]
      refine List.Pairwise.cons ?_ (List.Pairwise.cons h.1 h.2)
      intro b hb
      rcases List.mem_cons.mp hb with hb | hb
      · rw [hb]; exact hle
      · exact le_trans (h.1 b hb) hle
    · rw [if_neg hle]
      refine List.Pairwise.cons ?_ (ih h.2)
      intro b hb
      rcases mem_insertDesc.mp hb with hb | hb
      · rw [hb]; exact le_of_lt (lt_of_not_le hle)
      · exact h.1 b hb

lemma mem_sortByScoreDesc {p : String × Rat} {l : List (String × Rat)} :
    p ∈ sortByScoreDesc l ↔ p ∈ l := by
  induction l with
  | nil => simp [sortByScoreDesc]
  | cons a t ih =>
    show p ∈ insertDesc a (sortByScoreDesc t) ↔ _
    rw [mem_insertDesc, ih]
    simp [List.mem_cons]

lemma pairwise_sortByScoreDesc (l : List (String × Rat)) :
    (sortByScoreDesc l).Pairwise (fun a b => b.2 ≤ a.2) := by
  induction l with
  | nil => simp [sortByScoreDesc]
  | cons a t ih => exact pairwise_insertDesc ih

lemma sortByScoreDesc_eq_self {l : List (String × Rat)}
    (h : l.Pairwise (fun a b => b.2 ≤ a.2)) : sortByScoreDesc l = l := by
  induction l with
  | nil => rfl
  | cons a t ih =>
    rw [List.pairwise_cons] at h
    show insertDesc a (sortByScoreDesc t) = a :: t
    rw [ih h.2]
    cases t with
    | nil => rfl
    | cons b t2 => exact if_pos (h.1 b (List.mem_cons_self _ _))

lemma mem_dedupByLabel {p : String × Rat} :
    ∀ {seen : List String} {l : List (String × Rat)},
      p ∈ dedupByLabel seen l → p ∈ l ∧ ¬(p.1 ∈ seen) := by
  intro seen l
  induction l generalizing seen with
  | nil => intro h; cases h
  | cons a t ih =>
    intro h
    unfold dedupByLabel at h
    by_cases ha : a.1 ∈ seen
    · rw [if_pos ha] at h
      exact ⟨List.mem_cons_of_mem _ (ih h).1, (ih h).2⟩
    · rw [if_neg ha] at h
      rcases List.mem_cons.mp h with h1 | h1
      · exact ⟨h1 ▸ List.mem_cons_self _ _, by rw [h1]; exact ha⟩
      · have h2 := ih h1
        exact ⟨List.mem_cons_of_mem _ h2.1,
          fun hs => h2.2 (List.mem_cons_of_mem _ hs)⟩

lemma pairwise_dedupByLabel :
    ∀ {seen : List String} {l : List (String × Rat)},
      l.Pairwise (fun a b => b.2 ≤ a.2) →
      (dedupByLabel seen l).Pairwise (fun a b => b.2 ≤ a.2) := by
  intro seen l
  induction l generalizing seen with
  | nil => intro _; exact List.Pairwise.nil
  | cons a t ih =>
    intro h
    rw [List.pairwise_cons] at h
    unfold dedupByLabel
    by_cases ha : a.1 ∈ seen
    · rw [if_pos ha]; exact ih h.2
    · rw [if_neg ha]
      refine List.Pairwise.cons ?_ (ih h.2)
      intro b hb
      exact h.1 b (mem_dedupByLabel hb).1

lemma nodup_dedupByLabel :
    ∀ {seen : List String} {l : List (String × Rat)},
      ((dedupByLabel seen l).map Prod.fst).Nodup := by
  intro seen l
  induction l generalizing seen with
  | nil => exact List.Pairwise.nil
  | cons a t ih =>
    unfold dedupByLabel
    by_cases ha : a.1 ∈ seen
    · rw [if_pos ha]; exact ih
    · rw [if_neg ha]
      rw [List.map_cons, List.nodup_cons]
      refine ⟨?_, ih⟩
      intro hmem
      rcases List.mem_map.mp hmem with ⟨q, hq, hq1⟩
      exact (mem_dedupByLabel hq).2 (hq1 ▸ List.mem_cons_self _ _)

lemma dedupByLabel_max :
    ∀ {seen : List String} {l : List (String × Rat)},
      l.Pairwise (fun a b => b.2 ≤ a.2) →
      ∀ p ∈ dedupByLabel seen l, ∀ q ∈ l, q.1 = p.1 → q.2 ≤ p.2 := by
  intro seen l
  induction l generalizing seen with
  | nil => intro _ p hp; cases hp
  | cons a t ih =>
    intro h p hp q hq hq1
    rw [List.pairwise_cons] at h
    unfold dedupByLabel at hp
    by_cases ha : a.1 ∈ seen
    · rw [if_pos ha] at hp
      rcases List.mem_cons.mp hq with hqa | hqt
      · exact absurd (hq1 ▸ hqa ▸ ha) (mem_dedupByLabel hp).2
      · exact ih h.2 p hp q hqt hq1
    · rw [if_neg ha] at hp
      rcases List.mem_cons.mp hp with hpa | hpt
      · rcases List.mem_cons.mp hq with hqa | hqt
        · rw [hqa, hpa]
        · rw [hpa]; exact h.1 q hqt
      · rcases List.mem_cons.mp hq with hqa | hqt
        · exfalso
          refine (mem_dedupByLabel hpt).2 ?_
          rw [← hq1, hqa]
          exact List.mem_cons_self _ _
        · exact ih h.2 p hpt q hqt hq1

lemma dedupByLabel_eq_self :
    ∀ {seen : List String} {l : List (String × Rat)},
      (∀ p ∈ l, ¬(p.1 ∈ seen)) → (l.map Prod.fst).Nodup →
      dedupByLabel seen l = l := by
  intro seen l
  induction l generalizing seen with
  | nil => intro _ _; rfl
  | cons a t ih =>
    intro hseen hnodup
    rw [List.map_cons, List.nodup_cons] at hnodup
    unfold dedupByLabel
    rw [if_neg (hseen a (List.mem_cons_self _ _))]
    congr 1
    refine ih ?_ hnodup.2
    intro p hp hmem
    rcases List.mem_cons.mp hmem with h1 | h1
    · exact hnodup.1 (h1 ▸ List.mem_map_of_mem Prod.fst hp)
    · exact hseen p (List.mem_cons_of_mem _ hp) h1

lemma sortDedup_mem {p : String × Rat} {l : List (String × Rat)}
    (hp : p ∈ sortDedup l) : p ∈ l :=
  mem_sortByScoreDesc.mp (mem_dedupByLabel hp).1

lemma sortDedup_max {l : List (String × Rat)} :
    ∀ p ∈ sortDedup l, ∀ q ∈ l, q.1 = p.1 → q.2 ≤ p.2 := by
  intro p hp q hq
  exact dedupByLabel_max (pairwise_sortByScoreDesc l) p hp q
    (mem_sortByScoreDesc.mpr hq)

lemma sortDedup_pairwise (l : List (String × Rat)) :
    (sortDedup l).Pairwise (fun a b => b.2 ≤ a.2) :=
  pairwise_dedupByLabel (pairwise_sortByScoreDesc l)

lemma sortDedup_nodup (l : List (String × Rat)) :
    ((sortDedup l).map Prod.fst).Nodup := nodup_dedupByLabel

lemma sortDedup_idem (l : List (String × Rat)) :
    sortDedup (sortDedup l) = sortDedup l := by
  show dedupByLabel [] (sortByScoreDesc (sortDedup l)) = sortDedup l
  rw [sortByScoreDesc_eq_self (sortDedup_pairwise l)]
  exact dedupByLabel_eq_self (fun p _ hmem => by cases hmem) (sortDedup_nodup l)

lemma extractNumericPairs_ok_shape {df : Frame} {ps : List (String × Rat)}
    (h : extractNumericPairsFromData df = .ok ps) :
    ps = [] ∨ ∃ merged, ps = sortDedup merged := by
  unfold extractNumericPairsFromData at h
  split at h
  · exact Or.inl (Except.ok.inj h).symm
  · split at h
    · cases h
    · exact Or.inr ⟨_, (Except.ok.inj h).symm⟩

lemma strategy1_positive :
    ∀ {cols : List String} {leak : Option String} {rows : List (List Cell)}
      {ps : List (String × Rat)}, strategy1 cols leak rows = .ok ps →
      ∀ p ∈ ps, 0 < p.2 := by
  intro cols leak rows
  induction rows generalizing leak with
  | nil =>
    intro ps h p hp
    cases Except.ok.inj h ▸ hp
  | cons r rest ih =>
    intro ps h p hp
    unfold strategy1 at h
    split at h
    · exact ih h p hp
    · rename_i q hq
      split at h
      · rename_i hpos
        split at h
        · rename_i lc hlc
          split at h
          · rename_i ps2 hs
            cases Except.ok.inj h
            rcases List.mem_cons.mp hp with h1 | h1
            · rw [h1]; exact hpos
            · exact ih hs p h1
          · cases h
        · split at h
          · rename_i lc hlk
            split at h
            · rename_i ps2 hs
              cases Except.ok.inj h
              rcases List.mem_cons.mp hp with h1 | h1
              · rw [h1]; exact hpos
              · exact ih hs p h1
            · cases h
          · cases h
      · exact ih h p hp

/-- Counterexample to claim C8 as stated: a structured row with a positive
Score and an empty Label leaves the source's `label_clean` local unassigned,
and the resulting NameError is not caught (the `except` clause lists only
ValueError and TypeError), so the ranking raises instead of returning a
table. -/
theorem claim_C8_counterexample :
    getTop5NumericalRows ⟨["Label", "Score"], [[Cell.str "", Cell.num 5]]⟩ =
      .error "NameError" := by decide

/-- Claim C8 amended: whenever the top-5 ranking returns normally, the
result has at most 5 entries, pairwise-distinct labels, and scores in
descending order; the sort-and-deduplicate step keeps, for each label, a
pair from the merged list whose score is maximal for that label, and it is
idempotent. -/
theorem claim_C8_ranking :
    (∀ df : Frame, ∀ l, getTop5NumericalRows df = .ok l →
      l.length ≤ 5 ∧ (l.map Prod.fst).Nodup ∧
      l.Pairwise (fun a b => b.2 ≤ a.2)) ∧
    (∀ pairs : List (String × Rat), ∀ p ∈ sortDedup pairs,
      p ∈ pairs ∧ ∀ q ∈ pairs, q.1 = p.1 → q.2 ≤ p.2) ∧
    (∀ pairs : List (String × Rat), sortDedup (sortDedup pairs) = sortDedup pairs) := by
  refine ⟨?_, fun pairs p hp => ⟨sortDedup_mem hp, sortDedup_max p hp⟩, sortDedup_idem⟩
  have hnil : (([] : List (String × Rat)).length ≤ 5 ∧
      (([] : List (String × Rat)).map Prod.fst).Nodup ∧
      ([] : List (String × Rat)).Pairwise (fun a b => b.2 ≤ a.2)) := by
    exact ⟨by decide, List.Pairwise.nil, List.Pairwise.nil⟩
  have hps : ∀ ps : List (String × Rat), (ps = [] ∨ ∃ m, ps = sortDedup m) →
      ((sortByScoreDesc ps).take 5).length ≤ 5 ∧
      (((sortByScoreDesc ps).take 5).map Prod.fst).Nodup ∧
      ((sortByScoreDesc ps).take 5).Pairwise (fun a b => b.2 ≤ a.2) := by
    intro ps hshape
    refine ⟨List.length_take_le _ _, ?_, ?_⟩
    · refine List.Nodup.sublist ((List.take_sublist _ _).map Prod.fst) ?_
      rcases hshape with h | ⟨m, h⟩
      · rw [h]; exact List.Pairwise.nil
      · rw [h, sortByScoreDesc_eq_self (sortDedup_pairwise m)]
        exact sortDedup_nodup m
    · exact (pairwise_sortByScoreDesc ps).sublist (List.take_sublist _ _)
  intro df l h
  unfold getTop5NumericalRows at h
  split at h
  · cases Except.ok.inj h; exact hnil
  · split at h
    · cases Except.ok.inj h; exact hnil
    · split at h
      · cases h
      · rename_i ps hok
        split at h
        · cases Except.ok.inj h; exact hnil
        · cases Except.ok.inj h
          exact hps ps (extractNumericPairs_ok_shape hok)

/-- Counterexample to claim C10 as stated: the free-text pass scans every
cell — including the Label cell — with no positivity guard, so a row with
Label "math 0" and Score 0 puts ("Math", 0) into the top-5 even though the
label's only observed score is 0. -/
theorem claim_C10_counterexample :
    getTop5NumericalRows ⟨["Label", "Score"], [[Cell.str "math 0", Cell.num 0]]⟩ =
      .ok [("Math", 0)] := by decide

/-- Claim C10 amended: the structured pass emits a pair only for rows whose
Score coerces to a strictly positive number, and a table whose only row has
Label "Math" (no digits in the label text) and Score 0 yields an empty
top-5; the free-text pass applies no such positivity filter, so a zero
score can still reach the top-5 when the label cell text itself matches the
score patterns (see the counterexample). -/
theorem claim_C10_structured_positive_scores :
    (∀ (cols : List String) (leak : Option String) (rows : List (List Cell))
      (ps : List (String × Rat)), strategy1 cols leak rows = .ok ps →
      ∀ p ∈ ps, 0 < p.2) ∧
    getTop5NumericalRows ⟨["Label", "Score"], [[Cell.str "Math", Cell.num 0]]⟩ =
      .ok [] := by
  exact ⟨fun cols leak rows ps h => strategy1_positive h, by decide⟩

/-! ## Claim C9: predictive insights -/

lemma dictGet_dictSet_same {α : Type} (d : List (String × α)) (k : String)
    (v : α) : dictGet (dictSet d k v) k = some v := by
  induction d with
  | nil => simp [dictSet, dictGet]
  | cons hd t ih =>
    unfold dictSet
    by_cases h : hd.1 = k
    · rw [if_pos h]
      unfold dictGet
      rw [if_pos h]
    · rw [if_neg h]
      unfold dictGet
      rw [if_neg h]
      exact ih

lemma dictGet_dictSet_other {α : Type} (d : List (String × α)) {k k2 : String}
    (v : α) (h : k ≠ k2) : dictGet (dictSet d k v) k2 = dictGet d k2 := by
  induction d with
  | nil => simp [dictSet, dictGet, h]
  | cons hd t ih =>
    unfold dictSet
    by_cases h1 : hd.1 = k
    · rw [if_pos h1]
      unfold dictGet
      rw [if_neg (h1 ▸ h), if_neg (h1 ▸ h)]
    · rw [if_neg h1]
      unfold dictGet
      by_cases h2 : hd.1 = k2
      · rw [if_pos h2, if_pos h2]
      · rw [if_neg h2, if_neg h2]
        exact ih

lemma insightsFold_get_untouched (l : List (String × List Cell))
    (acc : List (String × String)) (col : String)
    (hne : ∀ p ∈ l, p.1 ≠ col) :
    dictGet (l.foldl (fun ins p =>
      match colInsight p.2 with
      | some phrase => dictSet ins p.1 phrase
      | none => ins) acc) col = dictGet acc col := by
  induction l generalizing acc with
  | nil => rfl
  | cons p t ih =>
    rw [List.foldl_cons]
    rw [ih _ (fun q hq => hne q (List.mem_cons_of_mem _ hq))]
    cases hci : colInsight p.2 with
    | none => rfl
    | some phrase =>
      exact dictGet_dictSet_other acc phrase (hne p (List.mem_cons_self _ _))

lemma insightsFold_get (l : List (String × List Cell))
    (acc : List (String × String)) (col : String) (cells : List Cell)
    (hnd : (l.map Prod.fst).Nodup) (hmem : (col, cells) ∈ l) :
    dictGet (l.foldl (fun ins p =>
      match colInsight p.2 with
      | some phrase => dictSet ins p.1 phrase
      | none => ins) acc) col =
      (match colInsight cells with
       | some phrase => some phrase
       | none => dictGet acc col) := by
  induction l generalizing acc with
  | nil => cases hmem
  | cons p t ih =>
    rw [List.map_cons, List.nodup_cons] at hnd
    rcases List.mem_cons.mp hmem with h1 | h1
    · subst h1
      rw [List.foldl_cons]
      have huntouched : ∀ q ∈ t, q.1 ≠ col := by
        intro q hq he
        apply hnd.1
        have hql : q.1 ∈ t.map Prod.fst := List.mem_map_of_mem Prod.fst hq
        rw [he] at hql
        exact hql
      rw [insightsFold_get_untouched t _ col huntouched]
      dsimp only
      cases hci : colInsight cells with
      | none => rfl
      | some phrase => exact dictGet_dictSet_same acc col phrase
    · rw [List.foldl_cons]
      have hp1 : p.1 ≠ col := by
        intro he
        apply hnd.1
        have hcl : col ∈ t.map Prod.fst := List.mem_map_of_mem Prod.fst h1
        rw [he]
        exact hcl
      rw [ih _ hnd.2 h1]
      cases hcc : colInsight cells with
      | some ph2 => rfl
      | none =>
        cases hci : colInsight p.2 with
        | none => rfl
        | some phrase => exact dictGet_dictSet_other acc phrase hp1

lemma frameColumns_map_fst (df : Frame) :
    (frameColumns df).map Prod.fst = df.cols := by
  unfold frameColumns
  rw [List.map_map]
  have : (Prod.fst ∘ fun p : Nat × String =>
      (p.2, df.rows.map (fun r => r.getD p.1 .null))) = Prod.snd := rfl
  rw [this, List.enum_map_snd]

/-- **C9**: for every numeric column (under pairwise-distinct column names),
no insight is recorded when the column has fewer than 3 non-null values;
with at least 3, the recorded insight is the phrase chosen by comparing the
mean of the last 3 non-null values with the overall mean; and on the series
[50, 50, 50, 90, 90] the result is the "above average" phrase. -/
theorem claim_C9_predictive_insights :
    (∀ df : Frame, df.cols.Nodup → ∀ col cells,
      (col, cells) ∈ frameColumns df → numericColB cells = true →
      ((nonNulls cells).length < 3 →
        dictGet (generatePredictiveInsights df) col = none) ∧
      (3 ≤ (nonNulls cells).length →
        dictGet (generatePredictiveInsights df) col =
          some (predictPhrase (nonNulls cells)))) ∧
    (∀ l : List Rat, predictPhrase l = "Recent performance is above average." ∨
      predictPhrase l = "Recent performance is below average." ∨
      predictPhrase l = "Performance is consistent.") ∧
    generatePredictiveInsights
      ⟨["Score"], [[.num 50], [.num 50], [.num 50], [.num 90], [.num 90]]⟩ =
      [("Score", "Recent performance is above average.")] := by
  have hconc : generatePredictiveInsights
      ⟨["Score"], [[.num 50], [.num 50], [.num 50], [.num 90], [.num 90]]⟩ =
      [("Score", predictPhrase [50, 50, 50, 90, 90])] := by rfl
  have hphrase : predictPhrase [50, 50, 50, 90, 90] =
      "Recent performance is above average." := by
    norm_num [predictPhrase, meanR, lastN]
  refine ⟨?_, ?_, by rw [hconc, hphrase]⟩
  · intro df hnd col cells hmem hnum
    have hnd2 : ((frameColumns df).map Prod.fst).Nodup := by
      rw [frameColumns_map_fst]; exact hnd
    have hbase := insightsFold_get (frameColumns df) [] col cells hnd2 hmem
    constructor
    · intro hlt
      have : colInsight cells = none := by
        unfold colInsight
        rw [if_pos hnum, if_pos hlt]
      rw [this] at hbase
      exact hbase
    · intro hge
      have : colInsight cells = some (predictPhrase (nonNulls cells)) := by
        unfold colInsight
        rw [if_pos hnum, if_neg (Nat.not_lt.mpr hge)]
      rw [this] at hbase
      exact hbase
  · intro l
    unfold predictPhrase
    by_cases h1 : meanR l < meanR (lastN 3 l)
    · rw [if_pos h1]; exact Or.inl rfl
    · rw [if_neg h1]
      by_cases h2 : meanR (lastN 3 l) < meanR l
      · rw [if_pos h2]; exact Or.inr (Or.inl rfl)
      · rw [if_neg h2]; exact Or.inr (Or.inr rfl)

/-! ## Claim C1: error handling of the public extraction functions -/

lemma extractBehaviourPairs_cases (df : Option Frame) (text : Option String) :
    extractBehaviourPairs df text = []
    ∨ (∃ f, df = some f ∧
        extractBehaviourPairs df text = extractBehaviourFromDataframe f)
    ∨ (∃ t, text = some t ∧
        extractBehaviourPairs df text = extractBehaviourFromText t) := by
  cases df with
  | none =>
    cases text with
    | none => exact Or.inl rfl
    | some t =>
      by_cases ht : t = ""
      · refine Or.inl ?_
        simp only [extractBehaviourPairs]
        rw [if_pos ht]
        simp
      · refine Or.inr (Or.inr ⟨t, rfl, ?_⟩)
        simp only [extractBehaviourPairs]
        rw [if_neg ht]
        simp
  | some f =>
    by_cases hd : (extractBehaviourFromDataframe f).isEmpty
    · cases text with
      | none =>
        refine Or.inl ?_
        simp only [extractBehaviourPairs]
        rw [if_pos hd]
      | some t =>
        by_cases ht : t = ""
        · refine Or.inl ?_
          simp only [extractBehaviourPairs]
          rw [if_pos hd, if_pos ht]
        · refine Or.inr (Or.inr ⟨t, rfl, ?_⟩)
          simp only [extractBehaviourPairs]
          rw [if_pos hd, if_neg ht]
    · refine Or.inr (Or.inl ⟨f, rfl, ?_⟩)
      simp only [extractBehaviourPairs]
      rw [if_neg hd]

/-- Counterexample to claim C1 as stated: `compute_statistics` has no
exception guard, and on a table whose Label column is numeric the metadata
loop calls `.lower()` on a float, raising an AttributeError to the caller
instead of returning an empty result. -/
theorem claim_C1_counterexample :
    computeStatistics ⟨["Label"], [[Cell.num 1]]⟩ = .error "AttributeError" := by
  decide

/-- Claim C1 amended: `extract_student_name` always terminates normally,
returning either the fallback string or the name found by the blob
heuristics; behaviour extraction returns the empty mapping on an empty
frame, and the public entry point always returns one of its two extractors'
results or the empty mapping; `compute_statistics`, however, is not
exception-safe (see the counterexample), though it does return a normal
statistics record on string-typed tables, concretely on a one-cell Label
table. -/
theorem claim_C1_error_handling :
    (∀ t : String, extractStudentName t = "Student name not found" ∨
      ∃ n, extractFromTextBlob t = some n ∧ extractStudentName t = n) ∧
    (∀ df : Frame, frameEmpty df = true → extractBehaviourFromDataframe df = []) ∧
    (∀ df : Option Frame, ∀ text : Option String,
      extractBehaviourPairs df text = []
      ∨ (∃ f, df = some f ∧
          extractBehaviourPairs df text = extractBehaviourFromDataframe f)
      ∨ (∃ t, text = some t ∧
          extractBehaviourPairs df text = extractBehaviourFromText t)) ∧
    computeStatistics ⟨["Label"], [[Cell.str "hello"]]⟩ =
      .ok ⟨1, 1, [], [], [], [], [], none, none, [], [], [], none, none⟩ := by
  refine ⟨?_, ?_, extractBehaviourPairs_cases, by decide⟩
  · intro t
    have h1 : extractStudentName t =
        (match extractFromTextBlob t with
         | some n => if n = "" then "Student name not found" else n
         | none => "Student name not found") := rfl
    cases h : extractFromTextBlob t with
    | none => exact Or.inl (by simp only [h1, h])
    | some n =>
      by_cases hn : n = ""
      · refine Or.inl ?_
        simp only [h1, h]
        rw [if_pos hn]
      · refine Or.inr ⟨n, rfl, ?_⟩
        simp only [h1, h]
        rw [if_neg hn]
  · intro df h
    unfold extractBehaviourFromDataframe
    rw [if_pos h]

end SLJS
